import Mathlib

/-!
The web server of `reference.c`: connection handling and request routing.

A shallow embedding of `src/reference.c`.

* A byte is a natural number (its code, below 256); a C string is the list of
  its bytes before the terminating NUL.  `cstr "GET"` is the C string of a
  literal.
* The three global counters and the calls made on the client socket are an
  explicit state, `Server`, passed through every function.  The counters are
  integers kept in the range of their C types by `long_add`.  One connection
  is followed at a time.  A call of `send` is recorded with the bytes it is
  given; what it returns is read nowhere in the source.
* The file system is a function from a path to what `fopen`, `ftell`,
  `malloc` and `fread` give there: `Opened`.
* The C library's part of `handle_calc` (the `%lf` conversion, `+` on doubles
  and `printf "%.2f"`) is a parameter, `DoubleOps`.
* The store through the null pointer at line 138 is the outcome `crashed`.
-/

namespace Webserver

/-! ## C strings -/

/-- The C string of a literal: the codes of its characters. -/
def cstr (s : String) : List Nat := s.toList.map Char.toNat

/-- The C string that starts at a buffer: the bytes before the first NUL. -/
def c_string (buf : List Nat) : List Nat := buf.takeWhile (fun c => c != 0)

/-- The function `strlen`. -/
def strlen (s : List Nat) : Nat := s.length

/-- The function `isspace` in the C locale: space, `\t`, `\n`, `\v`, `\f`, `\r`. -/
def isspace (c : Nat) : Bool := c == 32 || (9 ≤ c && c ≤ 13)

/-- The function `isdigit`. -/
def isdigit (c : Nat) : Bool := 48 ≤ c && c ≤ 57

/-- The function `tolower` in the C locale. -/
def tolower (c : Nat) : Nat := if 65 ≤ c ∧ c ≤ 90 then c + 32 else c

/-- The function `strcmp`: the difference of the first bytes that differ (the end of a
string counts as the byte 0), or 0. -/
def strcmp : List Nat → List Nat → Int
  | [], [] => 0
  | [], b :: _ => 0 - (b : Int)
  | a :: _, [] => (a : Int)
  | a :: as, b :: bs => if a = b then strcmp as bs else (a : Int) - (b : Int)

/-- The function `strncmp`: as `strcmp`, over at most `n` bytes. -/
def strncmp : List Nat → List Nat → Nat → Int
  | _, _, 0 => 0
  | [], [], _ + 1 => 0
  | [], b :: _, _ + 1 => 0 - (b : Int)
  | a :: _, [], _ + 1 => (a : Int)
  | a :: as, b :: bs, n + 1 =>
    if a = b then strncmp as bs n else (a : Int) - (b : Int)

/-- The function `strcasecmp`: as `strcmp`, on the lower-cased bytes. -/
def strcasecmp : List Nat → List Nat → Int
  | [], [] => 0
  | [], b :: _ => 0 - (tolower b : Int)
  | a :: _, [] => (tolower a : Int)
  | a :: as, b :: bs =>
    if tolower a = tolower b then strcasecmp as bs
    else (tolower a : Int) - (tolower b : Int)

/-- The function `strchr`: the offset of the first occurrence of `c` in the string, `none`
for the null pointer. -/
def strchr : List Nat → Nat → Option Nat
  | [], _ => none
  | a :: as, c => if a = c then some 0 else (strchr as c).map (· + 1)

/-- The call `strncpy(dst, src, n)` into a zero-filled buffer of more than `n` bytes:
the C string left in `dst`. -/
def strncpy (src : List Nat) (n : Nat) : List Nat := src.take n

/-- The call `snprintf(buf, size, ...)`: the C string left in `buf` when the formatted
text is `text`; at most `size - 1` bytes are kept. -/
def snprintf (size : Nat) (text : List Nat) : List Nat := text.take (size - 1)

/-- The conversion of a `size_t` to `int` (32 bits, two's complement). -/
def to_int (n : Nat) : Int :=
  if n % 4294967296 < 2147483648 then ((n % 4294967296 : Nat) : Int)
  else ((n % 4294967296 : Nat) : Int) - 4294967296

/-- The decimal digits of a natural number (`%u`). -/
def fmt_u (n : Nat) : List Nat := (Nat.toDigits 10 n).map Char.toNat

/-- The text `%d` and `%ld` print. -/
def fmt_d (i : Int) : List Nat :=
  if i < 0 then 45 :: fmt_u i.natAbs else fmt_u i.natAbs

/-! ## The formatted input of `sscanf` -/

/-- White space in a format, and before a `%s` or `%lf` conversion: the input
with its leading white space read. -/
def skip_space (input : List Nat) : List Nat := input.dropWhile isspace

/-- A `%<width>s` conversion: white space is skipped, then bytes are taken up
to the next white space, the end of the input or `width` bytes, whichever
comes first.  The field stored and the unread input; `none` when the input
ends before a byte is stored. -/
def scan_s (width : Nat) (input : List Nat) : Option (List Nat × List Nat) :=
  let field := ((skip_space input).takeWhile (fun c => !isspace c)).take width
  if field = [] then none else some (field, (skip_space input).drop field.length)

/-- The call `sscanf(request, "%15s %255s %15s", method, path, version)` of
`parse_request`: `some (method, path, version)` when it returns 3, `none`
when it returns anything else. -/
def sscanf_request (request : List Nat) : Option (List Nat × List Nat × List Nat) :=
  match scan_s 15 request with
  | none => none
  | some (method, r1) =>
    match scan_s 255 (skip_space r1) with
    | none => none
    | some (path, r2) =>
      match scan_s 15 (skip_space r2) with
      | none => none
      | some (version, _) => some (method, path, version)

/-- An ordinary character sequence of a format: the input must go on with it. -/
def scan_lit (lit input : List Nat) : Option (List Nat) :=
  if lit.isPrefixOf input then some (input.drop lit.length) else none

/-! ## State and environment -/

/-- The sum of two values of a `long` (64 bits, two's complement), wrapped
into the range of `long`.  Lines 40 and 126 add a `size_t`: the sum is formed
in `unsigned long` and converted back.  Line 104 adds a `long`: C leaves the
overflow undefined, and the wrapped sum is what the usual compilers give. -/
def long_add (a b : Int) : Int :=
  (a + b + 9223372036854775808) % 18446744073709551616 - 9223372036854775808

/-- A call on the client socket.  `send bytes` is a call of `send` with the
bytes it is given to transmit; no caller reads what `send` returns (lines 36
and 98), so the result of the call is not part of the state. -/
inductive Event where
  | send (bytes : List Nat)
  | close
  deriving DecidableEq, Repr

/-- The global counters of the server (lines 14-16), an `int` and two `long`,
and the calls made so far on the client socket, oldest first. -/
structure Server where
  request_count : Int
  total_received_bytes : Int
  total_sent_bytes : Int
  wire : List Event
  deriving DecidableEq, Repr

/-- The counters hold values of their C types: an `int` and two `long`. -/
def Server.in_range (s : Server) : Prop :=
  (-2147483648 ≤ s.request_count ∧ s.request_count < 2147483648) ∧
  (-9223372036854775808 ≤ s.total_received_bytes ∧
    s.total_received_bytes < 9223372036854775808) ∧
  (-9223372036854775808 ≤ s.total_sent_bytes ∧ s.total_sent_bytes < 9223372036854775808)

instance (s : Server) : Decidable s.in_range := by
  unfold Server.in_range
  infer_instance

/-- How a function ends: it returns, or the process stores through a null
pointer; either way with the state reached. -/
inductive Outcome where
  | returned (s : Server)
  | crashed (s : Server)
  deriving DecidableEq, Repr

/-- The state an outcome carries. -/
def Outcome.state : Outcome → Server
  | Outcome.returned s => s
  | Outcome.crashed s => s

/-- The double-precision operations `handle_calc` takes from the C library
the program runs on: the `%lf` conversion of `sscanf`, which from the input
gives the double it stores and the input it leaves unread, or `none` when it
converts nothing; the sum of two doubles; and the text `%.2f` prints. -/
structure DoubleOps where
  double : Type
  scan_lf : List Nat → Option (double × List Nat)
  add : double → double → double
  fmt_2f : double → List Nat

/-- The call `sscanf(query_string, "a=%lf&b=%lf", &a, &b)` of `handle_calc`:
`some (a, b)` when it returns 2, `none` when it returns anything else. -/
def sscanf_calc (L : DoubleOps) (query_string : List Nat) : Option (L.double × L.double) :=
  match scan_lit (cstr "a=") query_string with
  | none => none
  | some r1 =>
    match L.scan_lf r1 with
    | none => none
    | some (a, r2) =>
      match scan_lit (cstr "&b=") r2 with
      | none => none
      | some r3 =>
        match L.scan_lf r3 with
        | none => none
        | some (b, _) => some (a, b)

/-- What lines 89-94 find on a stream that `fopen` has opened: `file_size` is
what `ftell` returns after the seek to the end (the length of a regular file,
`LONG_MAX` on a directory, -1 when it fails), and `file_content` is the buffer
of `file_size` bytes that `malloc` gave, as `fread` left it, or `none` when
`malloc` returned the null pointer. -/
structure Opened where
  file_size : Int
  file_content : Option (List Nat)
  deriving DecidableEq, Repr

/-- A regular file that is read in full: `ftell` gives its length, `malloc`
succeeds and `fread` stores its contents. -/
def regular_file (content : List Nat) : Opened := ⟨content.length, some content⟩

/-- A directory: `fopen` opens it for reading, `ftell` gives `LONG_MAX`,
`malloc` of that many bytes returns the null pointer and `fread` stores
nothing. -/
def directory : Opened := ⟨9223372036854775807, none⟩

/-- The file system as `handle_static` sees it: what `fopen(path, "rb")`
opens, `none` when it returns the null pointer. -/
abbrev FileSystem := List Nat → Option Opened

/-! ## The functions of reference.c -/

/-- Lines 21-42. -/
def send_response (s : Server) (status_code content_type body : List Nat) : Server :=
  let content_length : Int := to_int (strlen body)
  let response := snprintf 1024
    (cstr "HTTP/1.1 " ++ status_code ++ cstr "\r\nContent-Type: " ++ content_type
      ++ cstr "\r\nContent-Length: " ++ fmt_d content_length
      ++ cstr "\r\nConnection: close\r\nServer: SimpleCServer/1.0\r\n\r\n" ++ body)
  { s with
    wire := s.wire ++ [Event.send response]
    total_sent_bytes := long_add s.total_sent_bytes (strlen response) }

/-- Lines 45-59. -/
def handle_stats (s : Server) : Server :=
  let body := snprintf 1024
    (cstr "<html><head><title>Server Stats</title></head><body><h1>Server Stats</h1><p>Requests received: "
      ++ fmt_d s.request_count ++ cstr "</p><p>Total received bytes: "
      ++ fmt_d s.total_received_bytes ++ cstr "</p><p>Total sent bytes: "
      ++ fmt_d s.total_sent_bytes ++ cstr "</p></body></html>")
  send_response s (cstr "200 OK") (cstr "text/html") body

/-- Lines 62-75. -/
def handle_calc (L : DoubleOps) (s : Server) (query_string : List Nat) : Server :=
  match sscanf_calc L query_string with
  | some (a, b) =>
    let result := L.add a b
    let body := snprintf 1024
      (cstr "<html><body><h1>Calculation Result: " ++ L.fmt_2f a ++ cstr " + "
        ++ L.fmt_2f b ++ cstr " = " ++ L.fmt_2f result ++ cstr "</h1></body></html>")
    send_response s (cstr "200 OK") (cstr "text/html") body
  | none =>
    let body := snprintf 1024
      (cstr "<html><body><h1>Error: Invalid input parameters</h1></body></html>")
    send_response s (cstr "400 Bad Request") (cstr "text/html") body

/-- Line 84: the path `handle_static` opens. -/
def file_full_path (file_path : List Nat) : List Nat :=
  snprintf 1024 (cstr "static" ++ file_path)

/-- Lines 78-110.  On a stream that `fopen` has opened, no result of `ftell`,
`malloc`, `fread` or `send` is tested: `send` is called with the buffer, and
with the null pointer it is given nothing to transmit; `file_size` is added
to `total_received_bytes`. -/
def handle_static (fs : FileSystem) (s : Server) (file_path : List Nat) : Server :=
  match fs (file_full_path file_path) with
  | some file =>
    { s with
      wire := s.wire ++ [Event.send (file.file_content.getD [])]
      total_received_bytes := long_add s.total_received_bytes file.file_size }
  | none =>
    let body := snprintf 1024 (cstr "<html><body><h1>File Not Found</h1></body></html>")
    send_response s (cstr "404 Not Found") (cstr "text/html") body

/-- Lines 142-151 of `parse_request`: the routes, tried in order. -/
def route (L : DoubleOps) (fs : FileSystem) (s : Server) (path query_string : List Nat) :
    Server :=
  if strncmp path (cstr "/static") 7 = 0 then handle_static fs s path
  else if strcmp path (cstr "/stats") = 0 then handle_stats s
  else if strncmp path (cstr "/calc") 5 = 0 then handle_calc L s query_string
  else send_response s (cstr "404 Not Found") (cstr "text/html")
    (cstr "<html><body><h1>404 Not Found</h1></body></html>")

/-- Lines 113-152.  `request` is the C string passed in. -/
def parse_request (L : DoubleOps) (fs : FileSystem) (s : Server) (request : List Nat) :
    Outcome :=
  match sscanf_request request with
  | none => Outcome.returned s
  | some (method, path, _) =>
    let s1 :=
      { s with total_received_bytes := long_add s.total_received_bytes (strlen request) }
    if strcasecmp method (cstr "GET") ≠ 0 then Outcome.returned s1
    else
      match strchr path 63 with
      | none => Outcome.returned (route L fs s1 path [])
      | some query_start =>
        let query_string := strncpy (path.drop (query_start + 1)) 255
        match strchr query_string 32 with
        | none => Outcome.crashed s1
        | some sp =>
          Outcome.returned (route L fs s1 (path.take query_start) (query_string.take sp))

/-- Lines 155-176.  `received` is what `recv` gave: `none` when it returned
a negative number, else the bytes it stored, of which there are at most
`sizeof(request) - 1`. -/
def handle_client (L : DoubleOps) (fs : FileSystem) (s : Server)
    (received : Option (List Nat)) : Outcome :=
  match received with
  | none => Outcome.returned { s with wire := s.wire ++ [Event.close] }
  | some bytes =>
    let request := bytes.take 1023
    if request.length ≤ 0 then Outcome.returned { s with wire := s.wire ++ [Event.close] }
    else
      match parse_request L fs s (c_string request) with
      | Outcome.returned s1 => Outcome.returned { s1 with wire := s1.wire ++ [Event.close] }
      | Outcome.crashed s1 => Outcome.crashed s1

/-- A `DoubleOps` for evaluation: `%lf` reads a run of decimal digits, which
stands for its value, and a sum is printed as its two operands joined by
`+`. -/
def symbolic_doubles : DoubleOps where
  double := List Nat
  scan_lf := fun input =>
    if input.takeWhile isdigit = [] then none
    else some (input.takeWhile isdigit, input.dropWhile isdigit)
  add := fun a b => a ++ 43 :: b
  fmt_2f := fun d => d

/-- The state of a server that has just started. -/
def Server.init : Server := ⟨0, 0, 0, []⟩

/-- No file anywhere. -/
def no_files : FileSystem := fun _ => none

/-- One regular file, `content` at `path`. -/
def one_file (path content : List Nat) : FileSystem :=
  fun p => if p = path then some (regular_file content) else none

/-- One directory, at `path`. -/
def one_directory (path : List Nat) : FileSystem :=
  fun p => if p = path then some directory else none

/-! ## Notions of the specification -/

/-- The fields of a text with the field being read in `cur`: see `fields`. -/
def fields_aux : List Nat → List Nat → List (List Nat)
  | [], cur => if cur = [] then [] else [cur]
  | c :: cs, cur =>
    if isspace c then (if cur = [] then fields_aux cs [] else cur :: fields_aux cs [])
    else fields_aux cs (cur ++ [c])

/-- The whitespace-separated fields of a text: its maximal runs of bytes that
are not white space, in order. -/
def fields (text : List Nat) : List (List Nat) := fields_aux text []

/-- The request line of a request: its text before the first CR or LF. -/
def request_line (text : List Nat) : List Nat :=
  text.takeWhile (fun c => c != 13 && c != 10)

/-- The standard response envelope for a status, a content type and a
Content-Length of `n`: the status line and the headers, with the blank line
that ends them. -/
def envelope (status content_type : List Nat) (n : Int) : List Nat :=
  cstr "HTTP/1.1 " ++ status ++ cstr "\r\nContent-Type: " ++ content_type
    ++ cstr "\r\nContent-Length: " ++ fmt_d n
    ++ cstr "\r\nConnection: close\r\nServer: SimpleCServer/1.0\r\n\r\n"

/-- The value of a text of decimal digits. -/
def decimal_value (digits : List Nat) : Nat :=
  digits.foldl (fun acc c => 10 * acc + (c - 48)) 0

/-- The bytes that reach the peer from a call of `send` that was given `bytes`
and returned `ret`: the first `ret` of them, none when the call failed. -/
def transmitted (bytes : List Nat) (ret : Int) : List Nat :=
  if ret < 0 then [] else bytes.take ret.toNat

/-- The segments of a path with the segment being read in `cur`: see
`segments`. -/
def segments_aux : List Nat → List Nat → List (List Nat)
  | [], cur => [cur]
  | c :: cs, cur => if c = 47 then cur :: segments_aux cs [] else segments_aux cs (cur ++ [c])

/-- The segments of a path: the texts between its `/`. -/
def segments (path : List Nat) : List (List Nat) := segments_aux path []

/-- Resolution of the segments of a relative path, the directories entered so
far in `stack`, innermost first: an empty segment and `.` stay, `..` leaves
the innermost directory, any other segment is entered.  `none` when `..`
leaves the directory the path starts from. -/
def resolve_aux : List (List Nat) → List (List Nat) → Option (List (List Nat))
  | [], stack => some stack.reverse
  | seg :: rest, stack =>
    if seg = [] ∨ seg = cstr "." then resolve_aux rest stack
    else if seg = cstr ".." then
      match stack with
      | [] => none
      | _ :: outer => resolve_aux rest outer
    else resolve_aux rest (seg :: stack)

/-- The location a relative path names once its `.` and `..` segments are
resolved: the directories from the working directory down to it. -/
def resolve (path : List Nat) : Option (List (List Nat)) := resolve_aux (segments path) []

/-- A relative path names a location inside the static root: resolved, it is
the directory `static` of the working directory or lies below it. -/
def inside_static_root (path : List Nat) : Prop :=
  ∃ below, resolve path = some (cstr "static" :: below)

/-! ## The string functions -/

theorem strncmp_literal (lit : List Nat) (hlit : 0 ∉ lit) (p : List Nat) :
    strncmp p lit lit.length = 0 ↔ lit <+: p := by
  induction lit generalizing p with
  | nil => simp [strncmp]
  | cons b bs ih =>
    have hb : b ≠ 0 := fun h => hlit (by simp [h])
    have hbs : 0 ∉ bs := fun h => hlit (by simp [h])
    cases p with
    | nil => simp [strncmp]; omega
    | cons a as =>
      simp only [strncmp, List.length_cons]
      by_cases hab : a = b
      · subst hab; simp [ih hbs]
      · simp [hab]
        constructor
        · intro h; omega
        · intro h; exact absurd h.1.symm hab

theorem strcmp_eq_zero (q : List Nat) (hq : 0 ∉ q) (p : List Nat) (hp : 0 ∉ p) :
    strcmp p q = 0 ↔ p = q := by
  induction q generalizing p with
  | nil =>
    cases p with
    | nil => simp [strcmp]
    | cons a as =>
      have : a ≠ 0 := fun h => hp (by simp [h])
      simp [strcmp]; omega
  | cons b bs ih =>
    have hb : b ≠ 0 := fun h => hq (by simp [h])
    have hbs : 0 ∉ bs := fun h => hq (by simp [h])
    cases p with
    | nil => simp [strcmp]; omega
    | cons a as =>
      have has : 0 ∉ as := fun h => hp (by simp [h])
      simp only [strcmp]
      by_cases hab : a = b
      · subst hab; simp [ih hbs as has]
      · simp [hab]; omega

theorem tolower_ne_zero (c : Nat) (h : c ≠ 0) : tolower c ≠ 0 := by
  unfold tolower; split <;> omega

theorem strcasecmp_eq_zero (q : List Nat) (hq : 0 ∉ q) (p : List Nat) (hp : 0 ∉ p) :
    strcasecmp p q = 0 ↔ p.map tolower = q.map tolower := by
  induction q generalizing p with
  | nil =>
    cases p with
    | nil => simp [strcasecmp]
    | cons a as =>
      have : a ≠ 0 := fun h => hp (by simp [h])
      have := tolower_ne_zero a this
      simp [strcasecmp]; omega
  | cons b bs ih =>
    have hb : b ≠ 0 := fun h => hq (by simp [h])
    have hbs : 0 ∉ bs := fun h => hq (by simp [h])
    have := tolower_ne_zero b hb
    cases p with
    | nil => simp [strcasecmp]; omega
    | cons a as =>
      have has : 0 ∉ as := fun h => hp (by simp [h])
      simp only [strcasecmp]
      by_cases hab : tolower a = tolower b
      · simp [hab, ih hbs as has]
      · simp [hab]; omega

theorem strchr_eq_none (l : List Nat) (c : Nat) : strchr l c = none ↔ c ∉ l := by
  induction l with
  | nil => simp [strchr]
  | cons a as ih =>
    simp only [strchr]
    by_cases h : a = c
    · simp [h]
    · have h2 : ¬ c = a := fun h' => h h'.symm
      simp [h, h2, ih]

/-! ## Fields and the `%s` conversion -/

theorem skip_space_head (l : List Nat) (c : Nat) (cs : List Nat)
    (h : skip_space l = c :: cs) : isspace c = false := by
  induction l with
  | nil => simp [skip_space] at h
  | cons a as ih =>
    unfold skip_space at h ih
    rw [List.dropWhile_cons] at h
    split at h
    · exact ih h
    · rename_i hsp
      injection h with h1 _
      subst h1
      simpa using hsp

theorem skip_space_of_head (c : Nat) (cs : List Nat) (h : isspace c = false) :
    skip_space (c :: cs) = c :: cs := by
  simp [skip_space, List.dropWhile_cons, h]

theorem skip_space_idem (l : List Nat) : skip_space (skip_space l) = skip_space l := by
  cases h : skip_space l with
  | nil => rfl
  | cons c cs => exact skip_space_of_head c cs (skip_space_head l c cs h)

theorem drop_length_takeWhile (p : Nat → Bool) (l : List Nat) :
    l.drop (l.takeWhile p).length = l.dropWhile p := by
  induction l with
  | nil => rfl
  | cons a as ih =>
    rw [List.takeWhile_cons, List.dropWhile_cons]
    split
    · simpa using ih
    · rfl

theorem fields_aux_skip (l : List Nat) : fields_aux l [] = fields_aux (skip_space l) [] := by
  induction l with
  | nil => rfl
  | cons a as ih =>
    by_cases h : isspace a = true
    · have : skip_space (a :: as) = skip_space as := by
        simp [skip_space, List.dropWhile_cons, h]
      rw [this, ← ih]
      simp [fields_aux, h]
    · have h2 : isspace a = false := by simpa using h
      rw [skip_space_of_head a as h2]

theorem fields_aux_run (l cur : List Nat) :
    fields_aux l cur =
      if cur ++ l.takeWhile (fun c => !isspace c) = [] then
        fields_aux (l.dropWhile (fun c => !isspace c)) []
      else (cur ++ l.takeWhile (fun c => !isspace c))
        :: fields_aux (l.dropWhile (fun c => !isspace c)) [] := by
  induction l generalizing cur with
  | nil => simp [fields_aux]
  | cons a as ih =>
    by_cases h : isspace a = true
    · simp [fields_aux, h, List.takeWhile_cons, List.dropWhile_cons]
    · have h2 : isspace a = false := by simpa using h
      rw [fields_aux]
      simp only [h2, Bool.false_eq_true, if_false]
      rw [ih (cur ++ [a])]
      simp [List.takeWhile_cons, List.dropWhile_cons, h2]

/-- The fields of a text, one field at a time. -/
theorem fields_unfold (l : List Nat) :
    fields l =
      if skip_space l = [] then []
      else (skip_space l).takeWhile (fun c => !isspace c)
        :: fields ((skip_space l).dropWhile (fun c => !isspace c)) := by
  unfold fields
  rw [fields_aux_skip l, fields_aux_run (skip_space l) []]
  cases h : skip_space l with
  | nil => simp [fields_aux]
  | cons c cs =>
    have hc := skip_space_head l c cs h
    simp [List.takeWhile_cons, hc]

theorem fields_skip_space (l : List Nat) : fields (skip_space l) = fields l := by
  unfold fields
  exact (fields_aux_skip l).symm

theorem scan_s_none_of_fields (w : Nat) (l : List Nat) (h : fields l = []) :
    scan_s w l = none := by
  rw [fields_unfold] at h
  split at h
  · rename_i hs
    simp [scan_s, hs]
  · simp at h

theorem scan_s_of_fields (w : Nat) (l f : List Nat) (fs : List (List Nat))
    (h : fields l = f :: fs) (hw : f.length ≤ w) :
    ∃ r, scan_s w l = some (f, r) ∧ fields r = fs := by
  rw [fields_unfold] at h
  split at h
  · simp at h
  · rename_i hs
    injection h with h1 h2
    refine ⟨(skip_space l).dropWhile (fun c => !isspace c), ?_, h2⟩
    have hne : f ≠ [] := by
      rw [← h1]
      cases h3 : skip_space l with
      | nil => exact absurd h3 hs
      | cons c cs =>
        have hc := skip_space_head l c cs h3
        simp [List.takeWhile_cons, hc]
    unfold scan_s
    simp only [h1, List.take_of_length_le hw, hne, if_false]
    rw [← h1, drop_length_takeWhile]

theorem scan_s_some (w : Nat) (l m r : List Nat) (h : scan_s w l = some (m, r)) :
    m ≠ [] ∧ m.length ≤ w ∧ (∀ c ∈ m, isspace c = false) ∧ (∀ c ∈ m, c ∈ l) ∧
      ∃ f fs, fields l = f :: fs ∧ m = f.take w := by
  unfold scan_s at h
  simp only at h
  split at h
  · simp at h
  · rename_i hne
    injection h with h
    injection h with h1 _
    subst h1
    refine ⟨hne, by simp [List.length_take], ?_, ?_, ?_⟩
    · intro c hc
      have := List.mem_takeWhile_imp (List.mem_of_mem_take hc)
      simpa using this
    · intro c hc
      have h1 := (List.takeWhile_sublist _).subset (List.mem_of_mem_take hc)
      exact (List.dropWhile_sublist _).subset h1
    · refine ⟨(skip_space l).takeWhile (fun c => !isspace c),
        fields ((skip_space l).dropWhile (fun c => !isspace c)), ?_, rfl⟩
      rw [fields_unfold]
      have : skip_space l ≠ [] := by
        intro h0
        apply hne
        simp [h0]
      simp [this]

theorem scan_s_rest (w : Nat) (l m r : List Nat) (h : scan_s w l = some (m, r)) :
    ∀ c ∈ r, c ∈ l := by
  unfold scan_s at h
  simp only at h
  split at h
  · simp at h
  · injection h with h
    injection h with _ h2
    subst h2
    intro c hc
    exact (List.dropWhile_sublist _).subset (List.mem_of_mem_drop hc)

theorem skip_space_subset (l : List Nat) : ∀ c ∈ skip_space l, c ∈ l :=
  fun _ hc => (List.dropWhile_sublist _).subset hc

/-- What `sscanf_request` stores when it returns 3. -/
theorem sscanf_request_some (l m p v : List Nat) (h : sscanf_request l = some (m, p, v)) :
    m.length ≤ 15 ∧ p.length ≤ 255 ∧ (∀ c ∈ p, isspace c = false) ∧
      (∀ c ∈ m, c ∈ l) ∧ (∀ c ∈ p, c ∈ l) ∧
      ∃ f fs, fields l = f :: fs ∧ m = f.take 15 := by
  unfold sscanf_request at h
  split at h
  · simp at h
  · rename_i m1 r1 h1
    split at h
    · simp at h
    · rename_i p1 r2 h2
      split at h
      · simp at h
      · rename_i v1 r3 h3
        simp only [Option.some.injEq, Prod.mk.injEq] at h
        obtain ⟨hm, hp, _⟩ := h
        subst hm hp
        obtain ⟨_, hm1, _, hm2, hm3⟩ := scan_s_some 15 l _ r1 h1
        obtain ⟨_, hp1, hp2, hp3, _⟩ := scan_s_some 255 (skip_space r1) _ r2 h2
        refine ⟨hm1, hp1, hp2, hm2, ?_, hm3⟩
        intro c hc
        exact scan_s_rest 15 l _ r1 h1 c (skip_space_subset r1 c (hp3 c hc))

/-- A text with fewer than three fields, the first of at most 15 bytes and the
second of at most 255: `sscanf_request` does not return 3. -/
theorem sscanf_request_none_of_fields (l : List Nat) (h : (fields l).length < 3)
    (h1 : ∀ f, (fields l)[0]? = some f → f.length ≤ 15)
    (h2 : ∀ f, (fields l)[1]? = some f → f.length ≤ 255) :
    sscanf_request l = none := by
  unfold sscanf_request
  cases hf : fields l with
  | nil => simp [scan_s_none_of_fields 15 l hf]
  | cons a t =>
    obtain ⟨r1, hs1, hr1⟩ := scan_s_of_fields 15 l a t hf (h1 a (by simp [hf]))
    simp only [hs1]
    cases t with
    | nil =>
      have : fields (skip_space r1) = [] := by rw [fields_skip_space, hr1]
      simp [scan_s_none_of_fields 255 _ this]
    | cons b t2 =>
      have hb : fields (skip_space r1) = b :: t2 := by rw [fields_skip_space, hr1]
      obtain ⟨r2, hs2, hr2⟩ := scan_s_of_fields 255 _ b t2 hb (h2 b (by simp [hf]))
      simp only [hs2]
      cases t2 with
      | nil =>
        have : fields (skip_space r2) = [] := by rw [fields_skip_space, hr2]
        simp [scan_s_none_of_fields 15 _ this]
      | cons c t3 =>
        rw [hf] at h
        simp only [List.length_cons] at h
        omega

theorem takeWhile_dropWhile_nil (p : Nat → Bool) (l : List Nat) :
    (l.dropWhile p).takeWhile p = [] := by
  induction l with
  | nil => rfl
  | cons a as ih =>
    rw [List.dropWhile_cons]
    split
    · exact ih
    · rename_i h
      rw [List.takeWhile_cons, if_neg h]

theorem dropWhile_dropWhile (p : Nat → Bool) (l : List Nat) :
    (l.dropWhile p).dropWhile p = l.dropWhile p := by
  induction l with
  | nil => rfl
  | cons a as ih =>
    rw [List.dropWhile_cons]
    split
    · exact ih
    · rename_i h
      rw [List.dropWhile_cons, if_neg h]

theorem takeWhile_append_of_all (p : Nat → Bool) (t r : List Nat) (h : ∀ c ∈ t, p c = true) :
    (t ++ r).takeWhile p = t ++ r.takeWhile p ∧ (t ++ r).dropWhile p = r.dropWhile p := by
  induction t with
  | nil => exact ⟨rfl, rfl⟩
  | cons a as ih =>
    have ha : p a = true := h a (by simp)
    have has : ∀ c ∈ as, p c = true := fun c hc => h c (by simp [hc])
    obtain ⟨h1, h2⟩ := ih has
    constructor
    · rw [List.cons_append, List.takeWhile_cons, if_pos ha, h1, List.cons_append]
    · rw [List.cons_append, List.dropWhile_cons, if_pos ha, h2]

/-- A `%s` conversion on a text that has a field: it stores the field, cut at
the width, and leaves a text with at least the fields that follow. -/
theorem scan_s_fields_rest (w : Nat) (hw : 0 < w) (l f : List Nat) (fs : List (List Nat))
    (h : fields l = f :: fs) :
    ∃ r, scan_s w l = some (f.take w, r) ∧ fs.length ≤ (fields r).length := by
  rw [fields_unfold] at h
  split at h
  · simp at h
  · rename_i hs
    injection h with h1 h2
    have hne : f ≠ [] := by
      rw [← h1]
      cases h3 : skip_space l with
      | nil => exact absurd h3 hs
      | cons c cs =>
        have hc := skip_space_head l c cs h3
        simp [List.takeWhile_cons, hc]
    have hne2 : f.take w ≠ [] := by
      cases f with
      | nil => exact absurd rfl hne
      | cons a as =>
        cases w with
        | zero => omega
        | succ n => simp
    refine ⟨(skip_space l).drop (f.take w).length, ?_, ?_⟩
    · unfold scan_s
      simp only [h1, hne2, if_false]
    · have hsplit : skip_space l
          = f ++ (skip_space l).dropWhile (fun c => !isspace c) := by
        rw [← h1]
        exact (List.takeWhile_append_dropWhile _ _).symm
      have hk : (f.take w).length ≤ f.length := by
        rw [List.length_take]
        exact Nat.min_le_right _ _
      have hall : ∀ c ∈ f.drop (f.take w).length, (fun c => !isspace c) c = true := by
        intro c hc
        have hc2 : c ∈ (skip_space l).takeWhile (fun c => !isspace c) := by
          rw [h1]
          exact List.mem_of_mem_drop hc
        exact List.mem_takeWhile_imp (p := fun c => !isspace c) hc2
      rw [hsplit, List.drop_append_of_le_length hk]
      obtain ⟨e1, e2⟩ := takeWhile_append_of_all (fun c => !isspace c)
        (f.drop (f.take w).length)
        ((skip_space l).dropWhile (fun c => !isspace c)) hall
      unfold fields
      rw [fields_aux_run, e1, e2, takeWhile_dropWhile_nil, dropWhile_dropWhile]
      unfold fields at h2
      rw [h2]
      split
      · exact Nat.le_refl _
      · simp

/-- A text with three whitespace-separated fields or more: `sscanf_request`
returns 3, and the method stored is the first field cut at 15 bytes. -/
theorem sscanf_request_of_three_fields (l : List Nat) (h : 3 ≤ (fields l).length) :
    ∃ m p v, sscanf_request l = some (m, p, v) := by
  unfold sscanf_request
  cases hf : fields l with
  | nil => rw [hf] at h; simp at h
  | cons a t =>
    obtain ⟨r1, hs1, hr1⟩ := scan_s_fields_rest 15 (by omega) l a t hf
    rw [hf] at h
    simp only [List.length_cons] at h
    simp only [hs1]
    cases hf2 : fields (skip_space r1) with
    | nil =>
      rw [fields_skip_space] at hf2
      rw [hf2] at hr1
      simp only [List.length_nil] at hr1
      omega
    | cons b t2 =>
      obtain ⟨r2, hs2, hr2⟩ := scan_s_fields_rest 255 (by omega) _ b t2 hf2
      rw [fields_skip_space] at hf2
      rw [hf2] at hr1
      simp only [List.length_cons] at hr1
      simp only [hs2]
      cases hf3 : fields (skip_space r2) with
      | nil =>
        rw [fields_skip_space] at hf3
        rw [hf3] at hr2
        simp only [List.length_nil] at hr2
        omega
      | cons c t3 =>
        obtain ⟨r3, hs3, _⟩ := scan_s_fields_rest 15 (by omega) _ c t3 hf3
        simp only [hs3]
        exact ⟨_, _, _, rfl⟩

/-- A text whose first three fields are a method of at most 15 bytes, a
target of at most 255 and a version: `sscanf_request` stores them, the
version cut at 15 bytes. -/
theorem sscanf_request_of_fields (l f g h : List Nat) (rest : List (List Nat))
    (hf : fields l = f :: g :: h :: rest) (h1 : f.length ≤ 15) (h2 : g.length ≤ 255) :
    sscanf_request l = some (f, g, h.take 15) := by
  unfold sscanf_request
  obtain ⟨r1, hs1, hr1⟩ := scan_s_of_fields 15 l f _ hf h1
  simp only [hs1]
  have hb : fields (skip_space r1) = g :: h :: rest := by rw [fields_skip_space, hr1]
  obtain ⟨r2, hs2, hr2⟩ := scan_s_of_fields 255 _ g _ hb h2
  simp only [hs2]
  have hc : fields (skip_space r2) = h :: rest := by rw [fields_skip_space, hr2]
  obtain ⟨r3, hs3, _⟩ := scan_s_fields_rest 15 (by omega) _ h rest hc
  simp only [hs3]

theorem c_string_no_nul (buf : List Nat) : 0 ∉ c_string buf := by
  intro h
  have := List.mem_takeWhile_imp h
  simp at this

theorem cstr_GET_lower : (cstr "GET").map tolower = cstr "get" := by decide

/-- The method test of line 130 on a C string. -/
theorem strcasecmp_GET (m : List Nat) (hm : 0 ∉ m) :
    strcasecmp m (cstr "GET") = 0 ↔ m.map tolower = cstr "get" := by
  rw [strcasecmp_eq_zero (cstr "GET") (by decide) m hm, cstr_GET_lower]

/-- Line 138 never finds a space: the query string is cut from a field that
`%255s` stored, and such a field holds no white space. -/
theorem strchr_query_string (p : List Nat) (hp : ∀ c ∈ p, isspace c = false) (i : Nat) :
    strchr (strncpy (p.drop (i + 1)) 255) 32 = none := by
  rw [strchr_eq_none]
  intro h
  have h1 : (32 : Nat) ∈ p := List.mem_of_mem_drop (List.mem_of_mem_take h)
  have := hp 32 h1
  simp [isspace] at this

/-- The paths through `parse_request` once `sscanf` has returned 3: a method
other than GET returns, a `?` in the path ends in the store through the null
pointer, and any other request is routed with an empty query string. -/
theorem parse_request_of_fields (L : DoubleOps) (fs : FileSystem) (s : Server)
    (request m p v : List Nat) (h : sscanf_request request = some (m, p, v)) :
    parse_request L fs s request =
      if strcasecmp m (cstr "GET") ≠ 0 then
        Outcome.returned
          { s with total_received_bytes := long_add s.total_received_bytes (strlen request) }
      else if 63 ∈ p then
        Outcome.crashed
          { s with total_received_bytes := long_add s.total_received_bytes (strlen request) }
      else
        Outcome.returned (route L fs
          { s with total_received_bytes := long_add s.total_received_bytes (strlen request) } p []) := by
  obtain ⟨_, _, hp, _⟩ := sscanf_request_some request m p v h
  unfold parse_request
  simp only [h]
  split
  · rfl
  · by_cases hq : 63 ∈ p
    · simp only [hq, if_true]
      cases hc : strchr p 63 with
      | none => exact absurd hq ((strchr_eq_none p 63).mp hc)
      | some i => simp only [strchr_query_string p hp i]
    · simp only [hq, if_false]
      rw [(strchr_eq_none p 63).mpr hq]

theorem lower_get_no_nul (m : List Nat) (h : m.map tolower = cstr "get") : 0 ∉ m := by
  intro h0
  have h1 : tolower 0 ∈ m.map tolower := List.mem_map_of_mem _ h0
  rw [h] at h1
  revert h1
  decide

theorem strcasecmp_of_lower_get (m : List Nat) (h : m.map tolower = cstr "get") :
    strcasecmp m (cstr "GET") = 0 :=
  (strcasecmp_GET m (lower_get_no_nul m h)).mpr h

/-! ## The responses -/

set_option maxRecDepth 100000

/-- What `send_response` does when the text it formats is known. -/
theorem send_response_eq (s : Server) (status_code content_type body response : List Nat)
    (n : Int)
    (h : snprintf 1024
      (cstr "HTTP/1.1 " ++ status_code ++ cstr "\r\nContent-Type: " ++ content_type
        ++ cstr "\r\nContent-Length: " ++ fmt_d (to_int (strlen body))
        ++ cstr "\r\nConnection: close\r\nServer: SimpleCServer/1.0\r\n\r\n" ++ body)
      = response)
    (hn : (response.length : Int) = n) :
    send_response s status_code content_type body =
      { s with
        wire := s.wire ++ [Event.send response]
        total_sent_bytes := long_add s.total_sent_bytes n } := by
  subst h hn
  rfl

/-- The response of line 150. -/
theorem send_response_not_found (s : Server) :
    send_response s (cstr "404 Not Found") (cstr "text/html")
        (cstr "<html><body><h1>404 Not Found</h1></body></html>") =
      { s with
        wire := s.wire ++ [Event.send (cstr "HTTP/1.1 404 Not Found\r\nContent-Type: text/html\r\nContent-Length: 48\r\nConnection: close\r\nServer: SimpleCServer/1.0\r\n\r\n<html><body><h1>404 Not Found</h1></body></html>")]
        total_sent_bytes := long_add s.total_sent_bytes 165 } :=
by
  refine send_response_eq s _ _ _ _ _ ?_ ?_ <;> decide

/-- The response of lines 107-108. -/
theorem send_response_file_not_found (s : Server) :
    send_response s (cstr "404 Not Found") (cstr "text/html")
        (snprintf 1024 (cstr "<html><body><h1>File Not Found</h1></body></html>")) =
      { s with
        wire := s.wire ++ [Event.send (cstr "HTTP/1.1 404 Not Found\r\nContent-Type: text/html\r\nContent-Length: 49\r\nConnection: close\r\nServer: SimpleCServer/1.0\r\n\r\n<html><body><h1>File Not Found</h1></body></html>")]
        total_sent_bytes := long_add s.total_sent_bytes 166 } :=
by
  refine send_response_eq s _ _ _ _ _ ?_ ?_ <;> decide

theorem strncmp_static (path : List Nat) :
    strncmp path (cstr "/static") 7 = 0 ↔ cstr "/static" <+: path :=
  strncmp_literal (cstr "/static") (by decide) path

theorem strncmp_calc (path : List Nat) :
    strncmp path (cstr "/calc") 5 = 0 ↔ cstr "/calc" <+: path :=
  strncmp_literal (cstr "/calc") (by decide) path

theorem strcmp_stats (path : List Nat) (hpath : 0 ∉ path) :
    strcmp path (cstr "/stats") = 0 ↔ path = cstr "/stats" :=
  strcmp_eq_zero (cstr "/stats") (by decide) path hpath

/-- C1.  Routing follows the four rules in order.  For every path (a C
string) and query string handed to the routes of `parse_request`: a path that
starts with `/static` goes to `handle_static`, unchanged; otherwise the path
`/stats` exactly goes to `handle_stats`; otherwise a path that starts with
`/calc` goes to `handle_calc` with the query string; otherwise exactly one
response is sent, the 404 with content type text/html and the fixed body.
And `parse_request` hands to these routes the path of every GET request whose
target has no `?`, with the empty query string. -/
theorem route_rules (L : DoubleOps) (fs : FileSystem) (s : Server) (path query : List Nat)
    (hpath : 0 ∉ path) :
    (cstr "/static" <+: path → route L fs s path query = handle_static fs s path) ∧
    (¬ cstr "/static" <+: path → path = cstr "/stats" →
      route L fs s path query = handle_stats s) ∧
    (¬ cstr "/static" <+: path → path ≠ cstr "/stats" → cstr "/calc" <+: path →
      route L fs s path query = handle_calc L s query) ∧
    (¬ cstr "/static" <+: path → path ≠ cstr "/stats" → ¬ cstr "/calc" <+: path →
      route L fs s path query =
        { s with
          wire := s.wire ++ [Event.send (cstr "HTTP/1.1 404 Not Found\r\nContent-Type: text/html\r\nContent-Length: 48\r\nConnection: close\r\nServer: SimpleCServer/1.0\r\n\r\n<html><body><h1>404 Not Found</h1></body></html>")]
          total_sent_bytes := long_add s.total_sent_bytes 165 }) ∧
    (∀ request method version, sscanf_request request = some (method, path, version) →
      method.map tolower = cstr "get" → 63 ∉ path →
      parse_request L fs s request =
        Outcome.returned (route L fs
          { s with total_received_bytes := long_add s.total_received_bytes (strlen request) }
          path [])) := by
  refine ⟨?_, ?_, ?_, ?_, ?_⟩
  · intro h1
    unfold route
    rw [if_pos ((strncmp_static path).mpr h1)]
  · intro h1 h2
    unfold route
    rw [if_neg (fun h => h1 ((strncmp_static path).mp h)),
      if_pos ((strcmp_stats path hpath).mpr h2)]
  · intro h1 h2 h3
    unfold route
    rw [if_neg (fun h => h1 ((strncmp_static path).mp h)),
      if_neg (fun h => h2 ((strcmp_stats path hpath).mp h)),
      if_pos ((strncmp_calc path).mpr h3)]
  · intro h1 h2 h3
    unfold route
    rw [if_neg (fun h => h1 ((strncmp_static path).mp h)),
      if_neg (fun h => h2 ((strcmp_stats path hpath).mp h)),
      if_neg (fun h => h3 ((strncmp_calc path).mp h))]
    exact send_response_not_found s
  · intro request method version hs hm hq
    rw [parse_request_of_fields L fs s request method path version hs,
      if_neg (fun h => h (strcasecmp_of_lower_get method hm)), if_neg hq]

/-- C1 at `/statsx`, `/` and `/nonexistent`: each gets the 404. -/
theorem route_rules_witness :
    0 ∉ cstr "/statsx" ∧
    (route symbolic_doubles no_files Server.init (cstr "/statsx") [] =
      { Server.init with
        wire := [Event.send (cstr "HTTP/1.1 404 Not Found\r\nContent-Type: text/html\r\nContent-Length: 48\r\nConnection: close\r\nServer: SimpleCServer/1.0\r\n\r\n<html><body><h1>404 Not Found</h1></body></html>")]
        total_sent_bytes := 165 }) ∧
    (route symbolic_doubles no_files Server.init (cstr "/") [] =
      { Server.init with
        wire := [Event.send (cstr "HTTP/1.1 404 Not Found\r\nContent-Type: text/html\r\nContent-Length: 48\r\nConnection: close\r\nServer: SimpleCServer/1.0\r\n\r\n<html><body><h1>404 Not Found</h1></body></html>")]
        total_sent_bytes := 165 }) ∧
    (route symbolic_doubles no_files Server.init (cstr "/nonexistent") [] =
      { Server.init with
        wire := [Event.send (cstr "HTTP/1.1 404 Not Found\r\nContent-Type: text/html\r\nContent-Length: 48\r\nConnection: close\r\nServer: SimpleCServer/1.0\r\n\r\n<html><body><h1>404 Not Found</h1></body></html>")]
        total_sent_bytes := 165 }) :=
  ⟨by decide,
   (route_rules symbolic_doubles no_files Server.init (cstr "/statsx") [] (by decide)).2.2.2.1
     (by decide) (by decide) (by decide),
   (route_rules symbolic_doubles no_files Server.init (cstr "/") [] (by decide)).2.2.2.1
     (by decide) (by decide) (by decide),
   (route_rules symbolic_doubles no_files Server.init (cstr "/nonexistent") [] (by decide)).2.2.2.1
     (by decide) (by decide) (by decide)⟩

/-! ## The query string -/

/-- C2.  The request `GET /calc?a=1&b=2 HTTP/1.1`: `parse_request` counts its
30 bytes as received and then stores through the null pointer that
`strchr(query_string, ' ')` returns at line 138.  `handle_calc` is not
called and nothing is sent: the calls made on the socket are those made
before. -/
theorem calc_request_crashes (L : DoubleOps) (fs : FileSystem) (s : Server) :
    parse_request L fs s (cstr "GET /calc?a=1&b=2 HTTP/1.1\r\n\r\n") =
      Outcome.crashed
        { s with total_received_bytes := long_add s.total_received_bytes 30 } := by
  rw [parse_request_of_fields L fs s _ (cstr "GET") (cstr "/calc?a=1&b=2") (cstr "HTTP/1.1")
    (by decide), if_neg (by decide), if_pos (by decide)]
  rfl

/-- C5.  The split of the target of a GET request.  When the target holds no
`?`, the path is the whole target and the query string is empty, and the
request is routed.  When the target holds a `?`, the split does not complete:
`parse_request` ends at line 138 in the store through the null pointer,
before the path is cut and before any route is tried, with nothing sent. -/
theorem query_split (L : DoubleOps) (fs : FileSystem) (s : Server)
    (request method target version : List Nat)
    (h : sscanf_request request = some (method, target, version))
    (hm : method.map tolower = cstr "get") :
    (63 ∉ target →
      parse_request L fs s request =
        Outcome.returned (route L fs
          { s with total_received_bytes := long_add s.total_received_bytes (strlen request) }
          target [])) ∧
    (63 ∈ target →
      parse_request L fs s request =
        Outcome.crashed
          { s with total_received_bytes := long_add s.total_received_bytes (strlen request) }) := by
  rw [parse_request_of_fields L fs s request method target version h,
    if_neg (fun h0 => h0 (strcasecmp_of_lower_get method hm))]
  exact ⟨fun hq => by rw [if_neg hq], fun hq => by rw [if_pos hq]⟩

/-- C5 at `GET /static/a.txt?x=1 HTTP/1.1`: the split does not complete. -/
theorem query_split_witness :
    parse_request symbolic_doubles no_files Server.init
        (cstr "GET /static/a.txt?x=1 HTTP/1.1\r\n\r\n") =
      Outcome.crashed { Server.init with total_received_bytes := 34 } :=
  (query_split symbolic_doubles no_files Server.init
    (cstr "GET /static/a.txt?x=1 HTTP/1.1\r\n\r\n") (cstr "GET") (cstr "/static/a.txt?x=1")
    (cstr "HTTP/1.1") (by decide) (by decide)).2 (by decide)

/-! ## The connection -/

/-- What `handle_client` does on a read that gave bytes. -/
theorem handle_client_of_bytes (L : DoubleOps) (fs : FileSystem) (s : Server)
    (bytes : List Nat) (h : bytes.take 1023 ≠ []) :
    handle_client L fs s (some bytes) =
      match parse_request L fs s (c_string (bytes.take 1023)) with
      | Outcome.returned s1 => Outcome.returned { s1 with wire := s1.wire ++ [Event.close] }
      | Outcome.crashed s1 => Outcome.crashed s1 := by
  unfold handle_client
  have : ¬ (bytes.take 1023).length ≤ 0 := by
    intro h0
    exact h (List.length_eq_zero.mp (Nat.le_zero.mp h0))
  simp only [this, if_false]

/-- C9.  The request `GET /calc?a=1&b=2 HTTP/1.1`: `handle_client` does not
reach its `close`.  The process stores through the null pointer inside
`parse_request`, and the calls made on the socket are those made before: no
`close` is among the calls of this connection. -/
theorem handle_client_crash_no_close (L : DoubleOps) (fs : FileSystem) (s : Server) :
    handle_client L fs s (some (cstr "GET /calc?a=1&b=2 HTTP/1.1\r\n\r\n")) =
      Outcome.crashed
        { s with total_received_bytes := long_add s.total_received_bytes 30 } := by
  rw [handle_client_of_bytes L fs s _ (by decide),
    show c_string ((cstr "GET /calc?a=1&b=2 HTTP/1.1\r\n\r\n").take 1023)
      = cstr "GET /calc?a=1&b=2 HTTP/1.1\r\n\r\n" from by decide,
    parse_request_of_fields L fs s _ (cstr "GET") (cstr "/calc?a=1&b=2") (cstr "HTTP/1.1")
      (by decide), if_neg (by decide), if_pos (by decide)]
  rfl

/-! ## The response envelope -/

theorem digitChar_toNat (m : Nat) (h : m < 10) : (Nat.digitChar m).toNat = 48 + m := by
  interval_cases m <;> rfl

theorem toDigitsCore_length (fuel n : Nat) (ds : List Char) (k : Nat) (h : n < 10 ^ (k + 1)) :
    (Nat.toDigitsCore 10 fuel n ds).length ≤ ds.length + (k + 1) := by
  induction fuel generalizing n ds k with
  | zero => simp [Nat.toDigitsCore]
  | succ fuel ih =>
    simp only [Nat.toDigitsCore]
    split
    · simp only [List.length_cons]
      omega
    · rename_i h0
      cases k with
      | zero =>
        exfalso
        apply h0
        have : n < 10 := by simpa using h
        omega
      | succ k =>
        have h1 : n / 10 < 10 ^ (k + 1) := by
          rw [Nat.div_lt_iff_lt_mul (by omega)]
          calc n < 10 ^ (k + 1 + 1) := h
            _ = 10 ^ (k + 1) * 10 := by rw [Nat.pow_succ]
        have := ih (n / 10) (Nat.digitChar (n % 10) :: ds) k h1
        simp only [List.length_cons] at this
        omega

theorem toDigitsCore_value (fuel n : Nat) (ds : List Char) (h : n < fuel) :
    List.foldl (fun acc c => 10 * acc + (c - 48)) 0
        ((Nat.toDigitsCore 10 fuel n ds).map Char.toNat) =
      List.foldl (fun acc c => 10 * acc + (c - 48)) n (ds.map Char.toNat) := by
  induction fuel generalizing n ds with
  | zero => omega
  | succ fuel ih =>
    have hd : (Nat.digitChar (n % 10)).toNat - 48 = n % 10 := by
      rw [digitChar_toNat _ (Nat.mod_lt _ (by omega))]
      omega
    simp only [Nat.toDigitsCore]
    split
    · rename_i h0
      simp only [List.map_cons, List.foldl_cons, hd]
      have : n % 10 = n := by omega
      rw [this]
      simp
    · rename_i h0
      have h1 : n / 10 < fuel := by omega
      rw [ih (n / 10) _ h1]
      simp only [List.map_cons, List.foldl_cons, hd]
      have : 10 * (n / 10) + n % 10 = n := Nat.div_add_mod n 10
      rw [this]

/-- The text `%d` prints for a number that is not negative is its decimal
representation. -/
theorem decimal_value_fmt_d (n : Nat) : decimal_value (fmt_d (n : Int)) = n := by
  unfold fmt_d decimal_value fmt_u Nat.toDigits
  rw [if_neg (by omega)]
  simp only [Int.natAbs_ofNat]
  rw [toDigitsCore_value (n + 1) n [] (by omega)]
  rfl

/-- The text `%d` or `%ld` prints for a `long` has at most 20 bytes. -/
theorem fmt_d_length (i : Int) (h1 : -9223372036854775808 ≤ i) (h2 : i < 9223372036854775808) :
    (fmt_d i).length ≤ 20 := by
  have hn : i.natAbs < 10 ^ (18 + 1) := by
    have : (10 : Nat) ^ (18 + 1) = 10000000000000000000 := by norm_num
    rw [this]
    omega
  have hu : (fmt_u i.natAbs).length ≤ 19 := by
    unfold fmt_u Nat.toDigits
    rw [List.length_map]
    have := toDigitsCore_length (i.natAbs + 1) i.natAbs [] 18 hn
    simpa using this
  unfold fmt_d
  split
  · simp only [List.length_cons]
    omega
  · omega

/-- What `send_response` does with a status, a content type and a body that
fit its buffer together with the envelope: `send` is given the envelope
followed by the body. -/
theorem send_response_fits (s : Server) (status_code content_type body : List Nat)
    (hfit : (envelope status_code content_type body.length ++ body).length ≤ 1023) :
    send_response s status_code content_type body =
      { s with
        wire := s.wire ++ [Event.send (envelope status_code content_type body.length ++ body)]
        total_sent_bytes := long_add s.total_sent_bytes
          (envelope status_code content_type body.length ++ body).length } := by
  have hb : body.length ≤ 1023 := by
    have h := hfit
    simp only [List.length_append] at h
    omega
  have hint : to_int (strlen body) = (body.length : Int) := by
    unfold to_int strlen
    have h1 : body.length % 4294967296 = body.length := Nat.mod_eq_of_lt (by omega)
    rw [h1, if_pos (by omega)]
  refine send_response_eq s _ _ _ _ _ ?_ rfl
  rw [hint]
  unfold snprintf
  exact List.take_of_length_le hfit

/-- The page of `handle_stats` has at most 227 bytes when the counters are in
range. -/
theorem stats_body_length (s : Server) (hs : s.in_range) :
    (cstr "<html><head><title>Server Stats</title></head><body><h1>Server Stats</h1><p>Requests received: "
      ++ fmt_d s.request_count ++ cstr "</p><p>Total received bytes: "
      ++ fmt_d s.total_received_bytes ++ cstr "</p><p>Total sent bytes: "
      ++ fmt_d s.total_sent_bytes ++ cstr "</p></body></html>").length ≤ 227 := by
  obtain ⟨⟨h1, h2⟩, ⟨h3, h4⟩, ⟨h5, h6⟩⟩ := hs
  have l1 := fmt_d_length s.request_count (by omega) (by omega)
  have l2 := fmt_d_length s.total_received_bytes h3 h4
  have l3 := fmt_d_length s.total_sent_bytes h5 h6
  have c1 : (cstr "<html><head><title>Server Stats</title></head><body><h1>Server Stats</h1><p>Requests received: ").length = 95 := by decide
  have c2 : (cstr "</p><p>Total received bytes: ").length = 29 := by decide
  have c3 : (cstr "</p><p>Total sent bytes: ").length = 25 := by decide
  have c4 : (cstr "</p></body></html>").length = 18 := by decide
  simp only [List.length_append, c1, c2, c3, c4]
  omega

/-- The envelope of a `text/html` response with a status of at most 15 bytes
and a body of at most 227 bytes fits the buffer with the body. -/
theorem envelope_fits (status body : List Nat) (h1 : status.length ≤ 15)
    (h2 : body.length ≤ 227) :
    (envelope status (cstr "text/html") body.length ++ body).length ≤ 1023 := by
  have l := fmt_d_length (body.length : Int) (by omega) (by omega)
  have c1 : (cstr "HTTP/1.1 ").length = 9 := by decide
  have c2 : (cstr "\r\nContent-Type: ").length = 16 := by decide
  have c3 : (cstr "text/html").length = 9 := by decide
  have c4 : (cstr "\r\nContent-Length: ").length = 18 := by decide
  have c5 : (cstr "\r\nConnection: close\r\nServer: SimpleCServer/1.0\r\n\r\n").length = 50 := by
    decide
  unfold envelope
  simp only [List.length_append, c1, c2, c3, c4, c5]
  omega

theorem long_add_in_range (a b : Int) :
    -9223372036854775808 ≤ long_add a b ∧ long_add a b < 9223372036854775808 := by
  unfold long_add
  omega

theorem long_add_eq (a b : Int) (h1 : -9223372036854775808 ≤ a + b)
    (h2 : a + b < 9223372036854775808) : long_add a b = a + b := by
  unfold long_add
  omega

/-- The path `handle_static` opens for a path that fits the buffer. -/
theorem file_full_path_eq (path : List Nat) (hlen : path.length ≤ 1017) :
    file_full_path path = cstr "static" ++ path := by
  unfold file_full_path snprintf
  apply List.take_of_length_le
  rw [List.length_append, show (cstr "static").length = 6 from by decide]
  omega

/-! ## What a request does to the state -/

/-- The effect of `send_response`: one call of `send`, given at most 1023
bytes, their number added to `total_sent_bytes`, the other counters as they
were. -/
theorem send_response_effect (s : Server) (status_code content_type body : List Nat) :
    ∃ response, response.length ≤ 1023 ∧
      send_response s status_code content_type body =
        { s with
          wire := s.wire ++ [Event.send response]
          total_sent_bytes := long_add s.total_sent_bytes response.length } := by
  refine ⟨_, ?_, send_response_eq s _ _ _ _ _ rfl rfl⟩
  unfold snprintf
  exact List.length_take_le _ _

/-- The effect of a route: one call of `send`; either with a response of
`send_response`, counted as sent, or with the buffer of a stream that `fopen`
opened, the result of `ftell` counted as received. -/
theorem route_effect (L : DoubleOps) (fs : FileSystem) (s : Server) (path query : List Nat) :
    (∃ sent, sent.length ≤ 1023 ∧
      route L fs s path query =
        { s with
          wire := s.wire ++ [Event.send sent]
          total_sent_bytes := long_add s.total_sent_bytes sent.length }) ∨
    (∃ file, cstr "/static" <+: path ∧ fs (file_full_path path) = some file ∧
      route L fs s path query =
        { s with
          wire := s.wire ++ [Event.send (file.file_content.getD [])]
          total_received_bytes := long_add s.total_received_bytes file.file_size }) := by
  unfold route
  split
  · rename_i h1
    unfold handle_static
    cases hfs : fs (file_full_path path) with
    | none => exact Or.inl (send_response_effect s _ _ _)
    | some file => exact Or.inr ⟨file, (strncmp_static path).mp h1, rfl, rfl⟩
  · split
    · unfold handle_stats
      exact Or.inl (send_response_effect s _ _ _)
    · split
      · unfold handle_calc
        split
        · exact Or.inl (send_response_effect s _ _ _)
        · exact Or.inl (send_response_effect s _ _ _)
      · exact Or.inl (send_response_effect s _ _ _)

/-- The query string `parse_request` passes is empty, and on the empty query
string `sscanf` converts nothing: `handle_calc` takes its second branch. -/
theorem handle_calc_empty (L : DoubleOps) (s : Server) :
    handle_calc L s [] =
      send_response s (cstr "400 Bad Request") (cstr "text/html")
        (snprintf 1024
          (cstr "<html><body><h1>Error: Invalid input parameters</h1></body></html>")) := by
  have h : sscanf_calc L [] = none := by
    unfold sscanf_calc
    rw [show scan_lit (cstr "a=") [] = none from by decide]
  unfold handle_calc
  rw [h]

/-- The calls of `send_response` that a route makes with the empty query
string, the counters in range: none when `fopen` opens the path of a static
file, else one, with content type `text/html`, a status of at most 15 bytes
and a body of at most 227 bytes. -/
theorem route_calls (L : DoubleOps) (fs : FileSystem) (s : Server) (path : List Nat)
    (hs : s.in_range) :
    (∃ file, cstr "/static" <+: path ∧ fs (file_full_path path) = some file ∧
      route L fs s path [] =
        { s with
          wire := s.wire ++ [Event.send (file.file_content.getD [])]
          total_received_bytes := long_add s.total_received_bytes file.file_size }) ∨
    (∃ status_code body, status_code.length ≤ 15 ∧ body.length ≤ 227 ∧
      route L fs s path [] = send_response s status_code (cstr "text/html") body) := by
  unfold route
  split
  · rename_i h1
    unfold handle_static
    cases hfs : fs (file_full_path path) with
    | none => exact Or.inr ⟨_, _, by decide, by decide, rfl⟩
    | some file => exact Or.inl ⟨file, (strncmp_static path).mp h1, rfl, rfl⟩
  · split
    · refine Or.inr ⟨cstr "200 OK", _, by decide, ?_, rfl⟩
      unfold snprintf
      exact Nat.le_trans (List.length_take_le' _ _) (stats_body_length s hs)
    · split
      · rw [handle_calc_empty]
        exact Or.inr ⟨_, _, by decide, by decide, rfl⟩
      · exact Or.inr ⟨_, _, by decide, by decide, rfl⟩

/-- The ways `parse_request` ends once `sscanf` has returned 3, the length of
the request already counted as received: it returns at the method test; it
stores through the null pointer; it sends one response, counted as sent; or
it calls `send` with the buffer of a static file, the result of `ftell`
counted as received. -/
theorem parse_request_cases (L : DoubleOps) (fs : FileSystem) (s : Server)
    (request m p v : List Nat) (h : sscanf_request request = some (m, p, v)) :
    parse_request L fs s request =
        Outcome.returned
          { s with total_received_bytes := long_add s.total_received_bytes (strlen request) } ∨
    parse_request L fs s request =
        Outcome.crashed
          { s with total_received_bytes := long_add s.total_received_bytes (strlen request) } ∨
    (∃ sent, sent.length ≤ 1023 ∧ parse_request L fs s request =
        Outcome.returned
          { s with
            total_received_bytes := long_add s.total_received_bytes (strlen request)
            wire := s.wire ++ [Event.send sent]
            total_sent_bytes := long_add s.total_sent_bytes sent.length }) ∨
    (∃ file, strcasecmp m (cstr "GET") = 0 ∧ 63 ∉ p ∧ cstr "/static" <+: p ∧
      fs (cstr "static" ++ p) = some file ∧
      parse_request L fs s request =
        Outcome.returned
          { s with
            total_received_bytes :=
              long_add (long_add s.total_received_bytes (strlen request)) file.file_size
            wire := s.wire ++ [Event.send (file.file_content.getD [])] }) := by
  obtain ⟨_, hlen, _⟩ := sscanf_request_some request m p v h
  rw [parse_request_of_fields L fs s request m p v h]
  by_cases hm : strcasecmp m (cstr "GET") ≠ 0
  · rw [if_pos hm]
    exact Or.inl rfl
  · rw [if_neg hm]
    by_cases hq : 63 ∈ p
    · rw [if_pos hq]
      exact Or.inr (Or.inl rfl)
    · rw [if_neg hq]
      rcases route_effect L fs
        { s with total_received_bytes := long_add s.total_received_bytes (strlen request) }
        p [] with ⟨sent, hl, hr⟩ | ⟨file, hst, hfs, hr⟩
      · exact Or.inr (Or.inr (Or.inl ⟨sent, hl, by rw [hr]⟩))
      · rw [file_full_path_eq p (by omega)] at hfs
        exact Or.inr (Or.inr (Or.inr ⟨file, by simpa using hm, hq, hst, hfs, by rw [hr]⟩))

/-- C6.  Every status, content type and body passed to `send_response`.
First, for any state, status, content type and body that fit the buffer of
1024 bytes together with the envelope: `send` is given the envelope
`HTTP/1.1 <status>`, `Content-Type: <type>`, `Content-Length: <n>`,
`Connection: close`, `Server: SimpleCServer/1.0` and the blank line, followed
by the body, and the decimal value of `<n>` is the number of bytes of the
body.  Second, that is so for every call the program makes: whatever the
request, the file system and the counters (in the range of their types),
`parse_request` ends without a call of `send_response` (it returns at once,
returns at the method test, stores through the null pointer, or calls `send`
with the buffer of a static file) or with exactly one, whose status, content
type `text/html` and body fit. -/
theorem send_response_envelope (L : DoubleOps) (fs : FileSystem) (s : Server)
    (request : List Nat) (hs : s.in_range) :
    (∀ (t : Server) (status_code content_type body : List Nat),
      (envelope status_code content_type body.length ++ body).length ≤ 1023 →
      send_response t status_code content_type body =
        { t with
          wire := t.wire ++
            [Event.send (envelope status_code content_type body.length ++ body)]
          total_sent_bytes := long_add t.total_sent_bytes
            (envelope status_code content_type body.length ++ body).length } ∧
      decimal_value (fmt_d body.length) = body.length) ∧
    (parse_request L fs s request = Outcome.returned s ∨
      parse_request L fs s request =
        Outcome.returned
          { s with total_received_bytes := long_add s.total_received_bytes (strlen request) } ∨
      parse_request L fs s request =
        Outcome.crashed
          { s with total_received_bytes := long_add s.total_received_bytes (strlen request) } ∨
      (∃ file : Opened, parse_request L fs s request =
        Outcome.returned
          { s with
            total_received_bytes :=
              long_add (long_add s.total_received_bytes (strlen request)) file.file_size
            wire := s.wire ++ [Event.send (file.file_content.getD [])] }) ∨
      (∃ status_code body,
        (envelope status_code (cstr "text/html") body.length ++ body).length ≤ 1023 ∧
        parse_request L fs s request =
          Outcome.returned (send_response
            { s with
              total_received_bytes := long_add s.total_received_bytes (strlen request) }
            status_code (cstr "text/html") body))) := by
  constructor
  · intro t status_code content_type body hfit
    exact ⟨send_response_fits t status_code content_type body hfit, decimal_value_fmt_d _⟩
  · cases h : sscanf_request request with
    | none =>
      left
      unfold parse_request
      rw [h]
    | some f =>
      obtain ⟨m, p, v⟩ := f
      rw [parse_request_of_fields L fs s request m p v h]
      by_cases hm : strcasecmp m (cstr "GET") ≠ 0
      · rw [if_pos hm]
        exact Or.inr (Or.inl rfl)
      · rw [if_neg hm]
        by_cases hq : 63 ∈ p
        · rw [if_pos hq]
          exact Or.inr (Or.inr (Or.inl rfl))
        · rw [if_neg hq]
          have hs1 : Server.in_range
              { s with
                total_received_bytes := long_add s.total_received_bytes (strlen request) } :=
            ⟨hs.1, long_add_in_range _ _, hs.2.2⟩
          rcases route_calls L fs _ p hs1 with ⟨file, _, _, hr⟩ | ⟨st, body, h1, h2, hr⟩
          · exact Or.inr (Or.inr (Or.inr (Or.inl ⟨file, by rw [hr]⟩)))
          · exact Or.inr (Or.inr (Or.inr (Or.inr
              ⟨st, body, envelope_fits st body h1 h2, by rw [hr]⟩)))

/-- C6 at the call of `send_response` for the first request of a server,
`GET /stats HTTP/1.1`: the status and the page fit, `send` is given the
envelope with `Content-Length: 171` followed by the 171 bytes of the page,
and that call is the one `parse_request` makes. -/
theorem send_response_envelope_witness :
    Server.in_range ⟨1, 0, 0, []⟩ ∧
    (send_response (⟨1, 23, 0, []⟩ : Server) (cstr "200 OK")
        (cstr "text/html")
        (cstr "<html><head><title>Server Stats</title></head><body><h1>Server Stats</h1><p>Requests received: 1</p><p>Total received bytes: 23</p><p>Total sent bytes: 0</p></body></html>") =
      { request_count := 1
        total_received_bytes := 23
        wire := [Event.send (cstr "HTTP/1.1 200 OK\r\nContent-Type: text/html\r\nContent-Length: 171\r\nConnection: close\r\nServer: SimpleCServer/1.0\r\n\r\n<html><head><title>Server Stats</title></head><body><h1>Server Stats</h1><p>Requests received: 1</p><p>Total received bytes: 23</p><p>Total sent bytes: 0</p></body></html>")]
        total_sent_bytes := 282 }) ∧
    decimal_value (cstr "171") = 171 ∧
    parse_request symbolic_doubles no_files ⟨1, 0, 0, []⟩ (cstr "GET /stats HTTP/1.1\r\n\r\n") =
      Outcome.returned (send_response (⟨1, 23, 0, []⟩ : Server) (cstr "200 OK")
        (cstr "text/html")
        (cstr "<html><head><title>Server Stats</title></head><body><h1>Server Stats</h1><p>Requests received: 1</p><p>Total received bytes: 23</p><p>Total sent bytes: 0</p></body></html>")) := by
  have h := (send_response_envelope symbolic_doubles no_files ⟨1, 0, 0, []⟩
    (cstr "GET /stats HTTP/1.1\r\n\r\n") (by decide)).1
    ⟨1, 23, 0, []⟩ (cstr "200 OK") (cstr "text/html")
    (cstr "<html><head><title>Server Stats</title></head><body><h1>Server Stats</h1><p>Requests received: 1</p><p>Total received bytes: 23</p><p>Total sent bytes: 0</p></body></html>")
    (by decide)
  refine ⟨by decide, ?_, by decide, by decide⟩
  rw [h.1]
  decide

/-! ## The calculator -/

theorem segments_aux_append (a l cur : List Nat) (ha : 47 ∉ a) :
    segments_aux (a ++ l) cur = segments_aux l (cur ++ a) := by
  induction a generalizing cur with
  | nil => simp
  | cons c cs ih =>
    have hc : c ≠ 47 := fun h => ha (by simp [h])
    have hcs : 47 ∉ cs := fun h => ha (by simp [h])
    rw [List.cons_append, segments_aux, if_neg hc, ih _ hcs]
    simp

theorem resolve_aux_no_dotdot (segs stack : List (List Nat)) (h : cstr ".." ∉ segs) :
    ∃ more, resolve_aux segs stack = some (stack.reverse ++ more) := by
  induction segs generalizing stack with
  | nil => exact ⟨[], by simp [resolve_aux]⟩
  | cons seg rest ih =>
    have hseg : seg ≠ cstr ".." := fun h0 => h (by simp [h0])
    have hrest : cstr ".." ∉ rest := fun h0 => h (by simp [h0])
    by_cases h1 : seg = [] ∨ seg = cstr "."
    · simp only [resolve_aux, h1, if_true]
      exact ih stack hrest
    · simp only [resolve_aux, h1, hseg, if_false]
      obtain ⟨more, hmore⟩ := ih (seg :: stack) hrest
      exact ⟨seg :: more, by rw [hmore]; simp⟩

/-- C7 fails at the request path `/static/../../etc/passwd`.  It starts with
`/static`, so the router passes it to `handle_static`; the path opened is
`static/static/../../etc/passwd`, which resolves to `etc/passwd` in the
working directory, outside the static root; and when that file can be opened
its contents are sent. -/
theorem static_path_escapes :
    cstr "/static" <+: cstr "/static/../../etc/passwd" ∧
    file_full_path (cstr "/static/../../etc/passwd") = cstr "static/static/../../etc/passwd" ∧
    resolve (file_full_path (cstr "/static/../../etc/passwd"))
      = some [cstr "etc", cstr "passwd"] ∧
    ¬ inside_static_root (file_full_path (cstr "/static/../../etc/passwd")) ∧
    ∀ (L : DoubleOps) (fs : FileSystem) (s : Server) (query content : List Nat),
      fs (cstr "static/static/../../etc/passwd") = some (regular_file content) →
      route L fs s (cstr "/static/../../etc/passwd") query =
        { s with
          wire := s.wire ++ [Event.send content]
          total_received_bytes := long_add s.total_received_bytes content.length } := by
  have h1 : file_full_path (cstr "/static/../../etc/passwd")
      = cstr "static/static/../../etc/passwd" := by decide
  have h2 : resolve (cstr "static/static/../../etc/passwd")
      = some [cstr "etc", cstr "passwd"] := by decide
  refine ⟨by decide, h1, by rw [h1, h2], ?_, ?_⟩
  · rintro ⟨below, h3⟩
    rw [h1, h2] at h3
    revert h3
    simp only [Option.some.injEq, List.cons.injEq]
    rintro ⟨h4, _⟩
    revert h4
    decide
  · intro L fs s query content hfs
    unfold route
    rw [if_pos (by decide)]
    unfold handle_static
    rw [h1, hfs]
    rfl

/-- C7, amended.  For every request path that the router passes to
`handle_static` (it starts with `/static` and, a field of `%255s`, has at most
255 bytes) and that has no `..` segment: the path `handle_static` opens is the
static root `static` followed by the request path, as it is, and it names a
location inside the static root. -/
theorem file_full_path_confined (path : List Nat) (hstatic : cstr "/static" <+: path)
    (hlen : path.length ≤ 255) (hdots : cstr ".." ∉ segments path) :
    file_full_path path = cstr "static" ++ path ∧
    inside_static_root (file_full_path path) := by
  have hfull := file_full_path_eq path (by omega)
  refine ⟨hfull, ?_⟩
  obtain ⟨t, ht⟩ := hstatic
  have hs : cstr "/static" = 47 :: cstr "static" := by decide
  have hno : 47 ∉ cstr "static" := by decide
  have hseg : segments path = [] :: segments_aux (cstr "static" ++ t) [] := by
    rw [← ht, hs]
    simp [segments, segments_aux]
  have hsegf : segments (cstr "static" ++ path)
      = cstr "static" :: segments_aux (cstr "static" ++ t) [] := by
    rw [← ht, hs]
    unfold segments
    rw [segments_aux_append _ _ _ hno]
    simp [segments_aux]
  have hx : cstr ".." ∉ segments_aux (cstr "static" ++ t) [] := by
    intro h0
    apply hdots
    rw [hseg]
    exact List.mem_cons_of_mem _ h0
  obtain ⟨more, hmore⟩ := resolve_aux_no_dotdot _ [cstr "static"] hx
  refine ⟨more, ?_⟩
  rw [hfull]
  unfold resolve
  rw [hsegf]
  have h1 : ¬ (cstr "static" = [] ∨ cstr "static" = cstr ".") := by decide
  have h2 : ¬ cstr "static" = cstr ".." := by decide
  simp only [resolve_aux, h1, h2, if_false]
  rw [hmore]
  simp

/-- C7, amended, at the request path `/static/css/site.css`. -/
theorem file_full_path_confined_witness :
    file_full_path (cstr "/static/css/site.css") = cstr "static" ++ cstr "/static/css/site.css" ∧
    inside_static_root (file_full_path (cstr "/static/css/site.css")) :=
  file_full_path_confined (cstr "/static/css/site.css") (by decide) (by decide) (by decide)

/-- C8 fails at the request `GET /static HTTP/1.1` when `static/static` is a
directory.  The path starts with `/static`; the path opened is
`static/static`, and `fopen` opens a directory for reading.  `ftell` then
gives `LONG_MAX`, `malloc` returns the null pointer, and the one call of
`send` is given nothing to transmit: the connection is closed with neither
contents nor the 404 response sent, and `LONG_MAX` has been added to
`total_received_bytes`, which wraps below zero. -/
theorem directory_request_unanswered :
    cstr "/static" <+: cstr "/static" ∧
    file_full_path (cstr "/static") = cstr "static/static" ∧
    one_directory (cstr "static/static") (cstr "static/static") = some directory ∧
    route symbolic_doubles (one_directory (cstr "static/static")) Server.init
        (cstr "/static") [] =
      { Server.init with
        wire := [Event.send []]
        total_received_bytes := 9223372036854775807 } ∧
    handle_client symbolic_doubles (one_directory (cstr "static/static")) Server.init
        (some (cstr "GET /static HTTP/1.1\r\n\r\n")) =
      Outcome.returned
        { Server.init with
          wire := [Event.send [], Event.close]
          total_received_bytes := -9223372036854775785 } := by
  refine ⟨by decide, by decide, by decide, by decide, by decide⟩

/-- C8, amended.  For every file system and every request path that starts
with `/static` (a field of `%255s`, so of at most 255 bytes), the route taken
is `handle_static` and: when the path `static` followed by the request path
is a regular file that is read in full, the one call made on the socket hands
to `send` that file's contents and nothing else, no status line and no
header; whatever `fopen` opens, the one call made is that `send` of the
buffer, never a response of `send_response`; and when `fopen` opens nothing,
the one call sends the standard envelope with status `404 Not Found` and the
body `<html><body><h1>File Not Found</h1></body></html>`. -/
theorem static_file_retrieval (L : DoubleOps) (fs : FileSystem) (s : Server)
    (path query : List Nat) (hstatic : cstr "/static" <+: path) (hlen : path.length ≤ 255) :
    (∀ content, fs (cstr "static" ++ path) = some (regular_file content) →
      route L fs s path query =
        { s with
          wire := s.wire ++ [Event.send content]
          total_received_bytes := long_add s.total_received_bytes content.length }) ∧
    (∀ file, fs (cstr "static" ++ path) = some file →
      route L fs s path query =
        { s with
          wire := s.wire ++ [Event.send (file.file_content.getD [])]
          total_received_bytes := long_add s.total_received_bytes file.file_size }) ∧
    (fs (cstr "static" ++ path) = none →
      route L fs s path query =
        { s with
          wire := s.wire ++ [Event.send (cstr "HTTP/1.1 404 Not Found\r\nContent-Type: text/html\r\nContent-Length: 49\r\nConnection: close\r\nServer: SimpleCServer/1.0\r\n\r\n<html><body><h1>File Not Found</h1></body></html>")]
          total_sent_bytes := long_add s.total_sent_bytes 166 }) := by
  have hr : route L fs s path query = handle_static fs s path := by
    unfold route
    rw [if_pos ((strncmp_static path).mpr hstatic)]
  have hp := file_full_path_eq path (by omega)
  refine ⟨?_, ?_, ?_⟩
  · intro content hfs
    rw [hr]
    unfold handle_static
    rw [hp, hfs]
    rfl
  · intro file hfs
    rw [hr]
    unfold handle_static
    rw [hp, hfs]
  · intro hfs
    rw [hr]
    unfold handle_static
    rw [hp, hfs]
    exact send_response_file_not_found s

/-- C8, amended, at the request path `/static/a.txt`, with the regular file
`static/static/a.txt` holding `hello` and with no file at all. -/
theorem static_file_retrieval_witness :
    (route symbolic_doubles (one_file (cstr "static/static/a.txt") (cstr "hello")) Server.init
        (cstr "/static/a.txt") [] =
      { Server.init with wire := [Event.send (cstr "hello")], total_received_bytes := 5 }) ∧
    (route symbolic_doubles no_files Server.init (cstr "/static/a.txt") [] =
      { Server.init with
        wire := [Event.send (cstr "HTTP/1.1 404 Not Found\r\nContent-Type: text/html\r\nContent-Length: 49\r\nConnection: close\r\nServer: SimpleCServer/1.0\r\n\r\n<html><body><h1>File Not Found</h1></body></html>")]
        total_sent_bytes := 166 }) := by
  have h1 := (static_file_retrieval symbolic_doubles
    (one_file (cstr "static/static/a.txt") (cstr "hello"))
    Server.init (cstr "/static/a.txt") [] (by decide) (by decide)).1 (cstr "hello") (by decide)
  have h2 := (static_file_retrieval symbolic_doubles no_files Server.init (cstr "/static/a.txt") []
    (by decide) (by decide)).2.2 rfl
  refine ⟨?_, ?_⟩
  · rw [h1]
    decide
  · rw [h2]
    decide

/-! ## Malformed requests -/

/-- What `handle_client` does when `parse_request` returns. -/
theorem handle_client_returned (L : DoubleOps) (fs : FileSystem) (s s1 : Server)
    (bytes : List Nat) (h : bytes.take 1023 ≠ [])
    (hp : parse_request L fs s (c_string (bytes.take 1023)) = Outcome.returned s1) :
    handle_client L fs s (some bytes) =
      Outcome.returned { s1 with wire := s1.wire ++ [Event.close] } := by
  rw [handle_client_of_bytes L fs s bytes h, hp]

/-- What `handle_client` does when `sscanf` does not return 3: nothing but
the close. -/
theorem handle_client_no_fields (L : DoubleOps) (fs : FileSystem) (s : Server)
    (bytes : List Nat) (h : sscanf_request (c_string (bytes.take 1023)) = none) :
    handle_client L fs s (some bytes) =
      Outcome.returned { s with wire := s.wire ++ [Event.close] } := by
  by_cases h0 : bytes.take 1023 = []
  · unfold handle_client
    simp [h0]
  · apply handle_client_returned L fs s s bytes h0
    unfold parse_request
    rw [h]

/-- What `handle_client` does on a GET request that no route matches: the 404 of line
150, then the close. -/
theorem handle_client_not_found (L : DoubleOps) (fs : FileSystem) (s : Server)
    (bytes method path version : List Nat) (n : Nat) (hb : bytes.take 1023 ≠ [])
    (hs : sscanf_request (c_string (bytes.take 1023)) = some (method, path, version))
    (hn : strlen (c_string (bytes.take 1023)) = n)
    (hm : strcasecmp method (cstr "GET") = 0) (hq : 63 ∉ path)
    (h1 : strncmp path (cstr "/static") 7 ≠ 0) (h2 : strcmp path (cstr "/stats") ≠ 0)
    (h3 : strncmp path (cstr "/calc") 5 ≠ 0) :
    handle_client L fs s (some bytes) =
      Outcome.returned
        { s with
          total_received_bytes := long_add s.total_received_bytes n
          total_sent_bytes := long_add s.total_sent_bytes 165
          wire := s.wire ++ [Event.send (cstr "HTTP/1.1 404 Not Found\r\nContent-Type: text/html\r\nContent-Length: 48\r\nConnection: close\r\nServer: SimpleCServer/1.0\r\n\r\n<html><body><h1>404 Not Found</h1></body></html>"), Event.close] } := by
  have hp : parse_request L fs s (c_string (bytes.take 1023)) =
      Outcome.returned
        { s with
          total_received_bytes := long_add s.total_received_bytes n
          total_sent_bytes := long_add s.total_sent_bytes 165
          wire := s.wire ++ [Event.send (cstr "HTTP/1.1 404 Not Found\r\nContent-Type: text/html\r\nContent-Length: 48\r\nConnection: close\r\nServer: SimpleCServer/1.0\r\n\r\n<html><body><h1>404 Not Found</h1></body></html>")] } := by
    rw [parse_request_of_fields L fs s _ method path version hs,
      if_neg (fun h0 => h0 hm), if_neg hq]
    unfold route
    rw [if_neg h1, if_neg h2, if_neg h3, send_response_not_found, hn]
  rw [handle_client_returned L fs s _ bytes hb hp]
  simp

/-- C4 fails at two requests.  The request `GET /aaa...a`, its target 256
bytes long, has two whitespace-separated fields; `%255s` stores 255 bytes of
the target and `%15s` the last one as the version, and the 404 is sent.  The
request `GET /` followed by the header line `Host: a` has a request line of
two fields; `%15s` stores `Host:` as the version, and the 404 is sent. -/
theorem two_field_request_answered :
    (fields (cstr "GET /" ++ List.replicate 255 97)).length = 2 ∧
    (fields (request_line (cstr "GET /\r\nHost: a\r\n\r\n"))).length = 2 ∧
    ∀ (L : DoubleOps) (fs : FileSystem) (s : Server),
      handle_client L fs s (some (cstr "GET /" ++ List.replicate 255 97)) =
        Outcome.returned
          { s with
            total_received_bytes := long_add s.total_received_bytes 260
            total_sent_bytes := long_add s.total_sent_bytes 165
            wire := s.wire ++ [Event.send (cstr "HTTP/1.1 404 Not Found\r\nContent-Type: text/html\r\nContent-Length: 48\r\nConnection: close\r\nServer: SimpleCServer/1.0\r\n\r\n<html><body><h1>404 Not Found</h1></body></html>"), Event.close] } ∧
      handle_client L fs s (some (cstr "GET /\r\nHost: a\r\n\r\n")) =
        Outcome.returned
          { s with
            total_received_bytes := long_add s.total_received_bytes 18
            total_sent_bytes := long_add s.total_sent_bytes 165
            wire := s.wire ++ [Event.send (cstr "HTTP/1.1 404 Not Found\r\nContent-Type: text/html\r\nContent-Length: 48\r\nConnection: close\r\nServer: SimpleCServer/1.0\r\n\r\n<html><body><h1>404 Not Found</h1></body></html>"), Event.close] } := by
  refine ⟨by decide, by decide, ?_⟩
  intro L fs s
  constructor
  · exact handle_client_not_found L fs s _ (cstr "GET") (cstr "/" ++ List.replicate 254 97)
      (cstr "a") 260 (by decide) (by decide) (by decide) (by decide) (by decide) (by decide)
      (by decide) (by decide)
  · exact handle_client_not_found L fs s _ (cstr "GET") (cstr "/") (cstr "Host:") 18
      (by decide) (by decide) (by decide) (by decide) (by decide) (by decide) (by decide)
      (by decide)

/-- C4, amended.  Of a received request take the whole text, up to its first
NUL.  When it has fewer than three whitespace-separated fields, the first of
at most 15 bytes and the second of at most 255, no handler is called, nothing
is sent and the connection is closed.  When its method, the first field cut
at 15 bytes, is not GET compared case-insensitively, no handler is called,
nothing is sent and the connection is closed.  When `sscanf` finds three
fields, the method is GET in any letter case and the target has no `?`, the
request is not dropped: it is routed, and one call of `send` is made before
the close; such is
every text whose first three fields are GET in any letter case, a target of
at most 255 bytes without `?`, and a version. -/
theorem malformed_request_dropped (L : DoubleOps) (fs : FileSystem) (s : Server)
    (bytes : List Nat) :
    ((fields (c_string (bytes.take 1023))).length < 3 →
      (∀ f, (fields (c_string (bytes.take 1023)))[0]? = some f → f.length ≤ 15) →
      (∀ f, (fields (c_string (bytes.take 1023)))[1]? = some f → f.length ≤ 255) →
      handle_client L fs s (some bytes) =
        Outcome.returned { s with wire := s.wire ++ [Event.close] }) ∧
    (∀ f rest, fields (c_string (bytes.take 1023)) = f :: rest →
      (f.take 15).map tolower ≠ cstr "get" →
      ∃ s1, handle_client L fs s (some bytes) = Outcome.returned s1 ∧
        s1.wire = s.wire ++ [Event.close]) ∧
    (∀ method target version,
      sscanf_request (c_string (bytes.take 1023)) = some (method, target, version) →
      method.map tolower = cstr "get" → 63 ∉ target →
      ∃ s1 sent, handle_client L fs s (some bytes) = Outcome.returned s1 ∧
        s1.wire = s.wire ++ [Event.send sent, Event.close]) ∧
    (∀ method target version rest,
      fields (c_string (bytes.take 1023)) = method :: target :: version :: rest →
      method.map tolower = cstr "get" → target.length ≤ 255 → 63 ∉ target →
      ∃ s1 sent, handle_client L fs s (some bytes) = Outcome.returned s1 ∧
        s1.wire = s.wire ++ [Event.send sent, Event.close]) := by
  have hsend : ∀ method target version,
      sscanf_request (c_string (bytes.take 1023)) = some (method, target, version) →
      method.map tolower = cstr "get" → 63 ∉ target →
      ∃ s1 sent, handle_client L fs s (some bytes) = Outcome.returned s1 ∧
        s1.wire = s.wire ++ [Event.send sent, Event.close] := by
    intro m p v hs hm hq
    have hb : bytes.take 1023 ≠ [] := by
      intro h0
      rw [h0] at hs
      simp [c_string, sscanf_request, scan_s, skip_space] at hs
    have hp : parse_request L fs s (c_string (bytes.take 1023)) =
        Outcome.returned (route L fs
          { s with total_received_bytes :=
              long_add s.total_received_bytes (strlen (c_string (bytes.take 1023))) } p []) := by
      rw [parse_request_of_fields L fs s _ m p v hs,
        if_neg (fun h0 => h0 (strcasecmp_of_lower_get m hm)), if_neg hq]
    rcases route_effect L fs
      { s with total_received_bytes :=
          long_add s.total_received_bytes (strlen (c_string (bytes.take 1023))) } p []
      with ⟨sent, _, hr⟩ | ⟨file, _, _, hr⟩
    · refine ⟨_, sent, handle_client_returned L fs s _ bytes hb hp, ?_⟩
      rw [hr]
      simp
    · refine ⟨_, file.file_content.getD [], handle_client_returned L fs s _ bytes hb hp, ?_⟩
      rw [hr]
      simp
  refine ⟨?_, ?_, hsend, ?_⟩
  · intro h h1 h2
    exact handle_client_no_fields L fs s bytes (sscanf_request_none_of_fields _ h h1 h2)
  · intro f rest hf hm
    cases hs : sscanf_request (c_string (bytes.take 1023)) with
    | none => exact ⟨_, handle_client_no_fields L fs s bytes hs, rfl⟩
    | some t =>
      obtain ⟨m, p, v⟩ := t
      obtain ⟨_, _, _, hsub, _, f2, fs2, hf2, hm2⟩ := sscanf_request_some _ m p v hs
      rw [hf] at hf2
      injection hf2 with hf3 _
      subst hf3
      have hnul : 0 ∉ m := fun h0 => c_string_no_nul _ (hsub 0 h0)
      have hne : strcasecmp m (cstr "GET") ≠ 0 := by
        intro h0
        apply hm
        rw [← hm2]
        exact (strcasecmp_GET m hnul).mp h0
      have hb : bytes.take 1023 ≠ [] := by
        intro h0
        rw [h0] at hf
        simp [c_string, fields, fields_aux] at hf
      refine ⟨_, handle_client_returned L fs s
        { s with total_received_bytes :=
            long_add s.total_received_bytes (strlen (c_string (bytes.take 1023))) } bytes hb ?_, rfl⟩
      rw [parse_request_of_fields L fs s _ m p v hs, if_pos hne]
  · intro m p v rest hf hm hlen hq
    have hm15 : m.length ≤ 15 := by
      have h3 : (m.map tolower).length = 3 := by rw [hm]; decide
      rw [List.length_map] at h3
      omega
    exact hsend m p (v.take 15) (sscanf_request_of_fields _ m p v rest hf hm15 hlen) hm hq

/-- C4, amended, at the requests `GET /`, `POST /x HTTP/1.1` and
`get /x HTTP/1.1`. -/
theorem malformed_request_dropped_witness :
    (handle_client symbolic_doubles no_files Server.init (some (cstr "GET /\r\n")) =
      Outcome.returned { Server.init with wire := [Event.close] }) ∧
    (∃ s1, handle_client symbolic_doubles no_files Server.init
        (some (cstr "POST /x HTTP/1.1\r\n\r\n")) = Outcome.returned s1 ∧
      s1.wire = [Event.close]) ∧
    (∃ s1 sent, handle_client symbolic_doubles no_files Server.init
        (some (cstr "get /x HTTP/1.1\r\n\r\n")) = Outcome.returned s1 ∧
      s1.wire = [Event.send sent, Event.close]) :=
  ⟨(malformed_request_dropped symbolic_doubles no_files Server.init (cstr "GET /\r\n")).1
      (by decide) (by decide) (by decide),
   (malformed_request_dropped symbolic_doubles no_files Server.init
      (cstr "POST /x HTTP/1.1\r\n\r\n")).2.1 (cstr "POST") [cstr "/x", cstr "HTTP/1.1"]
      (by decide) (by decide),
   (malformed_request_dropped symbolic_doubles no_files Server.init
      (cstr "get /x HTTP/1.1\r\n\r\n")).2.2.2 (cstr "get") (cstr "/x") (cstr "HTTP/1.1") []
      (by decide) (by decide) (by decide) (by decide)⟩

/-! ## Byte accounting -/

/-- C10 fails at three requests.  The request of 272 bytes `AAA...A` is one
field; `%15s`, `%255s` and `%15s` store three pieces of it, and its length is
added to `total_received_bytes`.  The request `GET /` followed by the header
line `Host: a` has a request line of two fields; `%15s` stores `Host:` as the
version, the length is added to `total_received_bytes` and the 404 that is
handed to `send` to `total_sent_bytes`; those 165 bytes are added whatever
`send` returns, also when it returns -1 and has transmitted nothing.  The
request `GET /static HTTP/1.1` with `static/static` a directory adds the
`LONG_MAX` of `ftell` to `total_received_bytes`: the counter of a server
that has just started wraps to a negative number, so it decreases. -/
theorem short_line_changes_counters :
    (fields (List.replicate 272 65)).length = 1 ∧
    (fields (request_line (cstr "GET /\r\nHost: a\r\n\r\n"))).length = 2 ∧
    (∀ (L : DoubleOps) (fs : FileSystem) (s : Server),
      parse_request L fs s (List.replicate 272 65) =
        Outcome.returned
          { s with total_received_bytes := long_add s.total_received_bytes 272 } ∧
      parse_request L fs s (cstr "GET /\r\nHost: a\r\n\r\n") =
        Outcome.returned
          { s with
            total_received_bytes := long_add s.total_received_bytes 18
            total_sent_bytes := long_add s.total_sent_bytes 165
            wire := s.wire ++ [Event.send (cstr "HTTP/1.1 404 Not Found\r\nContent-Type: text/html\r\nContent-Length: 48\r\nConnection: close\r\nServer: SimpleCServer/1.0\r\n\r\n<html><body><h1>404 Not Found</h1></body></html>")] }) ∧
    transmitted (cstr "HTTP/1.1 404 Not Found\r\nContent-Type: text/html\r\nContent-Length: 48\r\nConnection: close\r\nServer: SimpleCServer/1.0\r\n\r\n<html><body><h1>404 Not Found</h1></body></html>") (-1) = [] ∧
    parse_request symbolic_doubles (one_directory (cstr "static/static")) Server.init
        (cstr "GET /static HTTP/1.1\r\n\r\n") =
      Outcome.returned
        { Server.init with
          wire := [Event.send []]
          total_received_bytes := -9223372036854775785 } ∧
    (parse_request symbolic_doubles (one_directory (cstr "static/static")) Server.init
        (cstr "GET /static HTTP/1.1\r\n\r\n")).state.total_received_bytes <
      Server.init.total_received_bytes := by
  refine ⟨by decide, by decide, ?_, by decide, by decide, by decide⟩
  intro L fs s
  constructor
  · rw [parse_request_of_fields L fs s _ (List.replicate 15 65) (List.replicate 255 65)
      (List.replicate 2 65) (by decide), if_pos (by decide)]
    rfl
  · rw [parse_request_of_fields L fs s _ (cstr "GET") (cstr "/") (cstr "Host:") (by decide),
      if_neg (by decide), if_neg (by decide)]
    unfold route
    rw [if_neg (by decide), if_neg (by decide), if_neg (by decide), send_response_not_found]
    rfl

/-- C10, amended.  One request (a C string) handled by `parse_request`, on
the counters, an `int` and two `long` whose sums wrap.  A request in which
`sscanf` does not find three fields changes nothing, and such is every
request with fewer than three whitespace-separated fields in its whole text,
the first of at most 15 bytes and the second of at most 255.  In a request
with three whitespace-separated fields or more `sscanf` finds three; such a
request has its length added to `total_received_bytes`, whatever its method,
and nothing else is added to that counter unless `fopen` opens the path of a
static file; then the result of `ftell`, for a regular file its size, is
added to `total_received_bytes` as well and nothing to `total_sent_bytes`.  A
response of `send_response` adds to `total_sent_bytes` the number of bytes
handed to `send`, at most 1023.  `request_count` does not change.
`total_received_bytes` does not decrease when it is not negative, every
`ftell` result is not negative and the sums stay below 2^63;
`total_sent_bytes` does not decrease when it is not negative and below
2^63 - 1023. -/
theorem parse_request_accounting (L : DoubleOps) (fs : FileSystem) (s : Server)
    (request : List Nat) (hreq : 0 ∉ request) :
    (sscanf_request request = none → parse_request L fs s request = Outcome.returned s) ∧
    ((fields request).length < 3 →
      (∀ f, (fields request)[0]? = some f → f.length ≤ 15) →
      (∀ f, (fields request)[1]? = some f → f.length ≤ 255) →
      parse_request L fs s request = Outcome.returned s) ∧
    (3 ≤ (fields request).length → ∃ m p v, sscanf_request request = some (m, p, v)) ∧
    (∀ m p v, sscanf_request request = some (m, p, v) →
      m.map tolower ≠ cstr "get" →
      parse_request L fs s request =
        Outcome.returned
          { s with total_received_bytes := long_add s.total_received_bytes (strlen request) }) ∧
    (∀ m p v, sscanf_request request = some (m, p, v) →
      ¬ (m.map tolower = cstr "get" ∧ 63 ∉ p ∧ cstr "/static" <+: p ∧
          ∃ file, fs (cstr "static" ++ p) = some file) →
      (parse_request L fs s request).state.total_received_bytes =
        long_add s.total_received_bytes (strlen request)) ∧
    (∀ m p v file, sscanf_request request = some (m, p, v) →
      m.map tolower = cstr "get" → 63 ∉ p → cstr "/static" <+: p →
      fs (cstr "static" ++ p) = some file →
      parse_request L fs s request =
        Outcome.returned
          { s with
            total_received_bytes :=
              long_add (long_add s.total_received_bytes (strlen request)) file.file_size
            wire := s.wire ++ [Event.send (file.file_content.getD [])] }) ∧
    (∀ status_code content_type body, ∃ response, response.length ≤ 1023 ∧
      send_response s status_code content_type body =
        { s with
          wire := s.wire ++ [Event.send response]
          total_sent_bytes := long_add s.total_sent_bytes response.length }) ∧
    (parse_request L fs s request).state.request_count = s.request_count ∧
    (0 ≤ s.total_received_bytes →
      s.total_received_bytes + strlen request < 9223372036854775808 →
      (∀ path file, fs path = some file → 0 ≤ file.file_size ∧
        s.total_received_bytes + strlen request + file.file_size < 9223372036854775808) →
      s.total_received_bytes ≤ (parse_request L fs s request).state.total_received_bytes) ∧
    (0 ≤ s.total_sent_bytes → s.total_sent_bytes + 1023 < 9223372036854775808 →
      s.total_sent_bytes ≤ (parse_request L fs s request).state.total_sent_bytes) := by
  have hnone : sscanf_request request = none →
      parse_request L fs s request = Outcome.returned s := by
    intro h
    unfold parse_request
    rw [h]
  have hget : ∀ m p v, sscanf_request request = some (m, p, v) →
      (strcasecmp m (cstr "GET") = 0 ↔ m.map tolower = cstr "get") := by
    intro m p v h
    obtain ⟨_, _, _, hsub, _⟩ := sscanf_request_some request m p v h
    exact strcasecmp_GET m (fun h0 => hreq (hsub 0 h0))
  refine ⟨hnone, ?_, ?_, ?_, ?_, ?_, ?_, ?_, ?_, ?_⟩
  · intro h h1 h2
    exact hnone (sscanf_request_none_of_fields request h h1 h2)
  · intro h
    exact sscanf_request_of_three_fields request h
  · intro m p v h hm
    rw [parse_request_of_fields L fs s request m p v h,
      if_pos (fun h0 => hm ((hget m p v h).mp h0))]
  · intro m p v h hno
    rcases parse_request_cases L fs s request m p v h with hc | hc | ⟨sent, _, hc⟩ |
      ⟨file, hm, hq, hst, hfs, _⟩
    · rw [hc]; rfl
    · rw [hc]; rfl
    · rw [hc]; rfl
    · exact absurd ⟨(hget m p v h).mp hm, hq, hst, file, hfs⟩ hno
  · intro m p v file h hm hq hst hfs
    obtain ⟨_, hlen, _⟩ := sscanf_request_some request m p v h
    rw [parse_request_of_fields L fs s request m p v h,
      if_neg (fun h0 => h0 ((hget m p v h).mpr hm)), if_neg hq]
    unfold route
    rw [if_pos ((strncmp_static p).mpr hst)]
    unfold handle_static
    rw [file_full_path_eq p (by omega), hfs]
  · intro status_code content_type body
    exact send_response_effect s status_code content_type body
  · cases h : sscanf_request request with
    | none => rw [hnone h]; rfl
    | some t =>
      obtain ⟨m, p, v⟩ := t
      rcases parse_request_cases L fs s request m p v h with hc | hc | ⟨sent, _, hc⟩ |
        ⟨file, _, _, _, _, hc⟩ <;> rw [hc] <;> rfl
  · intro h0 h1 h2
    cases h : sscanf_request request with
    | none => rw [hnone h]; exact Int.le_refl _
    | some t =>
      obtain ⟨m, p, v⟩ := t
      have hl : long_add s.total_received_bytes (strlen request) =
          s.total_received_bytes + strlen request :=
        long_add_eq _ _ (by omega) h1
      rcases parse_request_cases L fs s request m p v h with hc | hc | ⟨sent, _, hc⟩ |
        ⟨file, _, _, _, hfs, hc⟩
      · rw [hc]; simp only [Outcome.state]; omega
      · rw [hc]; simp only [Outcome.state]; omega
      · rw [hc]; simp only [Outcome.state]; omega
      · obtain ⟨hf0, hf1⟩ := h2 _ file hfs
        rw [hc]
        simp only [Outcome.state]
        rw [hl, long_add_eq _ _ (by omega) hf1]
        omega
  · intro h0 h1
    cases h : sscanf_request request with
    | none => rw [hnone h]; exact Int.le_refl _
    | some t =>
      obtain ⟨m, p, v⟩ := t
      rcases parse_request_cases L fs s request m p v h with hc | hc | ⟨sent, hs, hc⟩ |
        ⟨file, _, _, _, _, hc⟩
      · rw [hc]; exact Int.le_refl _
      · rw [hc]; exact Int.le_refl _
      · rw [hc]
        simp only [Outcome.state]
        rw [long_add_eq _ _ (by omega) (by omega)]
        omega
      · rw [hc]; exact Int.le_refl _

/-- C10, amended, at the request `GET /static/a.txt HTTP/1.1` with the
regular file `static/static/a.txt` holding `hello`, and at the request
`GET /`. -/
theorem parse_request_accounting_witness :
    0 ∉ cstr "GET /static/a.txt HTTP/1.1\r\n\r\n" ∧
    (parse_request symbolic_doubles (one_file (cstr "static/static/a.txt") (cstr "hello"))
        Server.init (cstr "GET /static/a.txt HTTP/1.1\r\n\r\n") =
      Outcome.returned
        { Server.init with
          total_received_bytes := 35
          wire := [Event.send (cstr "hello")] }) ∧
    (parse_request symbolic_doubles no_files Server.init (cstr "GET /\r\n") =
      Outcome.returned Server.init) := by
  have h1 := (parse_request_accounting symbolic_doubles
    (one_file (cstr "static/static/a.txt") (cstr "hello")) Server.init
    (cstr "GET /static/a.txt HTTP/1.1\r\n\r\n") (by decide)).2.2.2.2.2.1
    (cstr "GET") (cstr "/static/a.txt") (cstr "HTTP/1.1") (regular_file (cstr "hello"))
    (by decide) (by decide) (by decide) (by decide) (by decide)
  have h2 := (parse_request_accounting symbolic_doubles no_files Server.init (cstr "GET /\r\n")
    (by decide)).2.1 (by decide) (by decide) (by decide)
  refine ⟨by decide, ?_, h2⟩
  rw [h1]
  decide

/-- The calls `handle_client` makes on the socket.  When it returns, they are
at most one send followed by one close, the close last; after an error or
empty read, the close alone.  When it does not return, the process has
stored through the null pointer in `parse_request` and no call was made. -/
theorem handle_client_closes_once (L : DoubleOps) (fs : FileSystem) (s : Server)
    (received : Option (List Nat)) :
    (handle_client L fs s none =
      Outcome.returned { s with wire := s.wire ++ [Event.close] }) ∧
    (handle_client L fs s (some []) =
      Outcome.returned { s with wire := s.wire ++ [Event.close] }) ∧
    ((∃ s1, handle_client L fs s received = Outcome.returned s1 ∧
        (s1.wire = s.wire ++ [Event.close] ∨
          ∃ sent, s1.wire = s.wire ++ [Event.send sent, Event.close])) ∨
      (∃ s1, handle_client L fs s received = Outcome.crashed s1 ∧ s1.wire = s.wire)) := by
  refine ⟨rfl, rfl, ?_⟩
  cases received with
  | none => exact Or.inl ⟨_, rfl, Or.inl rfl⟩
  | some bytes =>
    cases hs : sscanf_request (c_string (bytes.take 1023)) with
    | none => exact Or.inl ⟨_, handle_client_no_fields L fs s bytes hs, Or.inl rfl⟩
    | some t =>
      obtain ⟨m, p, v⟩ := t
      have hb : bytes.take 1023 ≠ [] := by
        intro h0
        rw [h0] at hs
        simp [c_string, sscanf_request, scan_s, skip_space] at hs
      rcases parse_request_cases L fs s _ m p v hs with hc | hc | ⟨sent, _, hc⟩ |
        ⟨file, _, _, _, _, hc⟩
      · exact Or.inl ⟨_, handle_client_returned L fs s _ bytes hb hc, Or.inl rfl⟩
      · refine Or.inr
          ⟨{ s with
              total_received_bytes :=
                long_add s.total_received_bytes (strlen (c_string (bytes.take 1023))) },
            ?_, rfl⟩
        rw [handle_client_of_bytes L fs s bytes hb, hc]
      · exact Or.inl ⟨_, handle_client_returned L fs s _ bytes hb hc, Or.inr ⟨sent, by simp⟩⟩
      · exact Or.inl ⟨_, handle_client_returned L fs s _ bytes hb hc,
          Or.inr ⟨file.file_content.getD [], by simp⟩⟩

end Webserver
